import Mathlib

/-!
# mm-channel-header: interactive menus, truncation and the bookmark flow

A shallow embedding of the Go sources `pinned_posts.go`, `bookmarks.go`,
`channel_header.go`, the structures of `config.go` and the flows of `main.go`.

* Go strings are byte sequences (`len` counts bytes, `s[:k]` slices bytes).
* Go `int` values are modelled by `Int`; every product and sum formed by the
  code below is bounded by twice the length of a slice, so no 64-bit
  wrap-around can occur on the states considered.
* A run-time panic (slice or index out of range, nil dereference) is the
  result `none`.
* `os.Exit` is an explicit outcome.
* The remote API (mattermost `model.Client4`) and the terminal (bubbletea)
  are external collaborators: the remote is a record of state-passing
  operations, the terminal is the list of messages it delivers.
-/

namespace MMChannelHeader

/-! ## Strings -/

/-- A Go string: a sequence of bytes. -/
abbrev GoString := List UInt8

/-- The bytes (UTF-8) of a string literal of the source. -/
def goString (s : String) : GoString := s.toList.flatMap String.utf8EncodeChar

/-- Go error values: nil or an error carrying a message. -/
abbrev GoError := Option GoString

/-- Indexing xs[i] with a Go int: panics outside [0, len). -/
def goIndex {α : Type} (xs : List α) (i : Int) : Option α :=
  if 0 ≤ i ∧ i < (xs.length : Int) then xs[i.toNat]? else none

/-- Slicing xs[lo:hi] for hi at most len(xs): panics unless 0 ≤ lo ≤ hi. -/
def goSlice {α : Type} (xs : List α) (lo hi : Int) : Option (List α) :=
  if 0 ≤ lo ∧ lo ≤ hi ∧ hi ≤ (xs.length : Int) then
    some ((xs.drop lo.toNat).take (hi - lo).toNat)
  else none

/-! ## main.go: constants and PostSummary -/

def maxMessageLength : Int := 40

def menuPostPerPage : Int := 2

structure PostSummary where
  PostID : GoString
  Message : GoString
deriving DecidableEq, Repr

/-! ## pinned_posts.go -/

/-- Go: truncateString (pinned_posts.go 263-268). -/
def truncateString (input : GoString) (maxLength : Int) : Option GoString :=
  if (input.length : Int) > maxLength then
    (goSlice input 0 (maxLength - 3)).map fun head => head ++ goString "..."
  else
    some input

/-- A bubbletea message: a key press, named as by tea.KeyMsg.String(), or any
other message (window size, ...). -/
inductive Msg where
  | KeyMsg (key : GoString)
  | other
deriving DecidableEq, Repr

/-- The command returned by Update: nil or tea.Quit. -/
inductive Cmd where
  | nil
  | Quit
deriving DecidableEq, Repr

/-- Go: type PaginationModel (pinned_posts.go 15-22). -/
structure PaginationModel where
  posts : List PostSummary
  currentPage : Int
  perPage : Int
  selection : Int
  done : Bool
  selected : GoString
deriving DecidableEq, Repr

/-- Go: type SelectionResult (pinned_posts.go 24-28). -/
structure SelectionResult where
  SelectionType : GoString
  PostID : GoString
  Message : GoString
deriving DecidableEq, Repr

/-- Go: NewPaginationModel (pinned_posts.go 31-36); unset fields are zero. -/
def NewPaginationModel (posts : List PostSummary) (perPage : Int) : PaginationModel :=
  { posts := posts, currentPage := 0, perPage := perPage, selection := 0,
    done := false, selected := [] }

/-- The end of the current page: start + perPage clamped to len(posts)
(pinned_posts.go 119-123). -/
def PaginationModel.pageEnd (m : PaginationModel) : Int :=
  let start := m.currentPage * m.perPage
  let stop := start + m.perPage
  if stop > (m.posts.length : Int) then (m.posts.length : Int) else stop

/-- Go: PaginationModel.visibleOptions (pinned_posts.go 117-142). -/
def PaginationModel.visibleOptions (m : PaginationModel) : Option (List GoString) :=
  let start := m.currentPage * m.perPage
  let stop := m.pageEnd
  (goSlice m.posts start stop).map fun page =>
    let options := page.map PostSummary.Message
    let options := if m.currentPage > 0 then options ++ [goString "Previous page"] else options
    let options := if stop < (m.posts.length : Int) then options ++ [goString "Next page"] else options
    options ++ [goString "Add a new pinned post"] ++ [goString "Abort"] ++ [goString "Skip"]

/-- Go: PaginationModel.Update (pinned_posts.go 42-96). -/
def PaginationModel.Update (m : PaginationModel) (msg : Msg) : Option (PaginationModel × Cmd) :=
  match msg with
  | Msg.KeyMsg key =>
    if key = goString "q" ∨ key = goString "ctrl+c" then
      some ({ m with done := true, selected := goString "Abort", selection := -1 }, Cmd.Quit)
    else if key = goString "enter" then
      m.visibleOptions.bind fun options =>
      (goIndex options m.selection).bind fun selected =>
        if selected = goString "Next page" then
          if (m.currentPage + 1) * m.perPage < (m.posts.length : Int) then
            some ({ m with currentPage := m.currentPage + 1, selection := 0 }, Cmd.nil)
          else some (m, Cmd.nil)
        else if selected = goString "Previous page" then
          if m.currentPage > 0 then
            some ({ m with currentPage := m.currentPage - 1, selection := 0 }, Cmd.nil)
          else some (m, Cmd.nil)
        else if selected = goString "Add a new pinned post" ∨ selected = goString "Abort"
            ∨ selected = goString "Skip" then
          some ({ m with done := true, selected := selected }, Cmd.Quit)
        else
          some ({ m with done := true, selected := selected }, Cmd.Quit)
    else if key = goString "up" then
      if m.selection > 0 then some ({ m with selection := m.selection - 1 }, Cmd.nil)
      else some (m, Cmd.nil)
    else if key = goString "down" then
      m.visibleOptions.bind fun options =>
        if m.selection < (options.length : Int) - 1 then
          some ({ m with selection := m.selection + 1 }, Cmd.nil)
        else some (m, Cmd.nil)
    else if key = goString "left" then
      if m.currentPage > 0 then
        some ({ m with currentPage := m.currentPage - 1, selection := 0 }, Cmd.nil)
      else some (m, Cmd.nil)
    else if key = goString "right" then
      if (m.currentPage + 1) * m.perPage < (m.posts.length : Int) then
        some ({ m with currentPage := m.currentPage + 1, selection := 0 }, Cmd.nil)
      else some (m, Cmd.nil)
    else some (m, Cmd.nil)
  | Msg.other => some (m, Cmd.nil)

/-- Go: PaginationModel.SelectedOption (pinned_posts.go 144-150). -/
def PaginationModel.SelectedOption (m : PaginationModel) : Option GoString :=
  m.visibleOptions.bind fun options =>
    if m.selection ≥ 0 ∧ m.selection < (options.length : Int) then goIndex options m.selection
    else some (goString "Abort")

/-- The state of a terminal program after the messages delivered so far:
still waiting for input, ended by tea.Quit, or stopped by a panic. -/
inductive RunState (M : Type) where
  | running (m : M)
  | finished (m : M)
  | crashed
deriving DecidableEq, Repr

/-- The event loop of tea.Program.Run: every message is passed to Update, and
the loop ends as soon as Update returns tea.Quit. -/
def runProgram {M : Type} (update : M → Msg → Option (M × Cmd)) : M → List Msg → RunState M
  | m, [] => RunState.running m
  | m, msg :: rest =>
    match update m msg with
    | none => RunState.crashed
    | some (m1, Cmd.Quit) => RunState.finished m1
    | some (m1, Cmd.nil) => runProgram update m1 rest

/-- The fields of model.Post read by the code. -/
structure Post where
  Id : GoString
  Message : GoString
deriving DecidableEq, Repr

/-- Go: model.PostList, the ids in display order and the map from id to post. -/
structure PostList where
  Order : List GoString
  Posts : List (GoString × Post)
deriving DecidableEq, Repr

/-- The three results of a remote call: the value, the HTTP status of the
response and the error. The status is read only when the error is nil. -/
structure Reply (α : Type) where
  value : α
  StatusCode : Int
  err : GoError
deriving DecidableEq, Repr

/-- What the terminal delivers to tea.Program.Run: the messages read, or a
failure of the terminal program itself. -/
inductive Terminal where
  | input (msgs : List Msg)
  | broken (err : GoString)
deriving DecidableEq, Repr

/-- Go: strings.Split(s, "\n")[0], the bytes before the first line feed. -/
def firstLine (s : GoString) : GoString := s.takeWhile fun b => b ≠ 10

/-- The loop of GetPinnedPost building the summaries (pinned_posts.go 216-225);
a post id missing from the map is a nil dereference. -/
def postSummaries (pinned : PostList) : List GoString → Option (List PostSummary)
  | [] => some []
  | postID :: rest =>
    (pinned.Posts.lookup postID).bind fun post =>
    (truncateString (firstLine post.Message) maxMessageLength).bind fun shortMessage =>
    (postSummaries pinned rest).map fun summaries =>
      { PostID := post.Id, Message := shortMessage } :: summaries

/-- The loop of GetPinnedPost matching the selected label back to a post
(pinned_posts.go 238-247): the first summary whose truncated message equals it. -/
def matchSelected (selected : GoString) : List PostSummary → Option (Option PostSummary)
  | [] => some none
  | post :: rest =>
    (truncateString post.Message maxMessageLength).bind fun truncatedMessage =>
      if selected = truncatedMessage then some (some post) else matchSelected selected rest

/-- Go: GetPinnedPost (pinned_posts.go 194-261), given the reply of the remote
GetPinnedPosts call and what the terminal delivers. The result is none when
the function does not return: a panic, or a menu still waiting for a key. -/
def GetPinnedPost (reply : Reply PostList) (tty : Terminal) :
    Option (SelectionResult × GoError) :=
  if reply.err ≠ none then
    some ({ SelectionType := [], PostID := [], Message := [] }, reply.err)
  else if reply.StatusCode ≠ 200 then
    some ({ SelectionType := [], PostID := [], Message := [] },
      some (goString "bad HTTP response"))
  else if reply.value.Order.length ≤ 0 then
    some ({ SelectionType := goString "AddNew", PostID := [], Message := [] }, none)
  else
    (postSummaries reply.value reply.value.Order).bind fun summaries =>
    match tty with
    | Terminal.broken err =>
      some ({ SelectionType := [], PostID := [], Message := [] }, some err)
    | Terminal.input msgs =>
      match runProgram PaginationModel.Update (NewPaginationModel summaries menuPostPerPage) msgs with
      | RunState.finished menuModel =>
        menuModel.SelectedOption.bind fun selected =>
        (matchSelected selected summaries).bind fun found =>
        match found with
        | some post =>
          some ({ SelectionType := goString "PinnedPost", PostID := post.PostID,
                  Message := post.Message }, none)
        | none =>
          if selected = goString "Add a new pinned post" then
            some ({ SelectionType := goString "AddNew", PostID := [], Message := [] }, none)
          else if selected = goString "Abort" then
            some ({ SelectionType := goString "Abort", PostID := [], Message := [] }, none)
          else if selected = goString "Skip" then
            some ({ SelectionType := goString "Skip", PostID := [], Message := [] }, none)
          else
            some ({ SelectionType := goString "Error", PostID := [], Message := [] },
              some (goString "error processing interactive menu"))
      | RunState.running _ => none
      | RunState.crashed => none

/-! ## bookmarks.go -/

/-- Go: type BookmarkAction string (bookmarks.go 13). -/
abbrev BookmarkAction := GoString

def BookmarkReplace : BookmarkAction := goString "Replace"

def BookmarkAppend : BookmarkAction := goString "Append"

def BookmarkAbort : BookmarkAction := goString "Abort"

/-- Go: type BookmarkActionModel (bookmarks.go 21-26). -/
structure BookmarkActionModel where
  options : List BookmarkAction
  cursor : Int
  selected : BookmarkAction
  done : Bool
deriving DecidableEq, Repr

/-- Go: NewBookmarkActionModel (bookmarks.go 28-39). -/
def NewBookmarkActionModel : BookmarkActionModel :=
  { options := [BookmarkReplace, BookmarkAppend, BookmarkAbort],
    cursor := 0, selected := BookmarkAbort, done := false }

/-- Go: BookmarkActionModel.Update (bookmarks.go 45-68). -/
def BookmarkActionModel.Update (m : BookmarkActionModel) (msg : Msg) :
    Option (BookmarkActionModel × Cmd) :=
  match msg with
  | Msg.KeyMsg key =>
    if key = goString "q" ∨ key = goString "ctrl+c" then
      some ({ m with done := true, selected := BookmarkAbort }, Cmd.Quit)
    else if key = goString "up" then
      if m.cursor > 0 then some ({ m with cursor := m.cursor - 1 }, Cmd.nil)
      else some (m, Cmd.nil)
    else if key = goString "down" then
      if m.cursor < (m.options.length : Int) - 1 then
        some ({ m with cursor := m.cursor + 1 }, Cmd.nil)
      else some (m, Cmd.nil)
    else if key = goString "enter" then
      (goIndex m.options m.cursor).map fun option =>
        ({ m with done := true, selected := option }, Cmd.Quit)
    else some (m, Cmd.nil)
  | Msg.other => some (m, Cmd.nil)

/-- Go: BookmarkActionModel.SelectedAction (bookmarks.go 87-89). -/
def BookmarkActionModel.SelectedAction (m : BookmarkActionModel) : BookmarkAction := m.selected

/-- Update applied to each message in turn, the returned commands dropped. -/
def applyMsgs {M : Type} (update : M → Msg → Option (M × Cmd)) : M → List Msg → Option M
  | m, [] => some m
  | m, msg :: rest => (update m msg).bind fun r => applyMsgs update r.1 rest

/-- Go: RunBookmarkMenu (bookmarks.go 91-99); none when the menu never ends. -/
def RunBookmarkMenu (tty : Terminal) : Option BookmarkAction :=
  match tty with
  | Terminal.broken _ => some BookmarkAbort
  | Terminal.input msgs =>
    match runProgram BookmarkActionModel.Update NewBookmarkActionModel msgs with
    | RunState.finished model => some model.SelectedAction
    | RunState.running _ => none
    | RunState.crashed => none

/-! ## config.go -/

structure Person where
  Role : GoString
  Name : GoString
  Email : GoString
deriving DecidableEq, Repr

structure Bookmark where
  DisplayName : GoString
  LinkURL : GoString
  Emoji : GoString
deriving DecidableEq, Repr

structure Resource where
  DisplayName : GoString
  URL : GoString
  Description : GoString
deriving DecidableEq, Repr

structure Config where
  Team : List Person
  Bookmarks : List Bookmark
  Resources : List Resource
deriving DecidableEq, Repr

/-! ## bookmarks.go: the remote bookmark flow -/

/-- The fields of model.ChannelBookmark used by the code. -/
structure ChannelBookmark where
  Id : GoString
  ChannelId : GoString
  DisplayName : GoString
  LinkUrl : GoString
  Emoji : GoString
  Type_ : GoString
deriving DecidableEq, Repr

/-- The bookmark operations of model.Client4, as functions passing the state
of the remote server. -/
structure Client4 (σ : Type) where
  ListChannelBookmarksForChannel : σ → GoString → Int → Reply (List ChannelBookmark) × σ
  DeleteChannelBookmark : σ → GoString → GoString → Reply Unit × σ
  CreateChannelBookmark : σ → ChannelBookmark → Reply Unit × σ

/-- How a flow of the program ends: it returns, or it calls os.Exit. -/
inductive Outcome where
  | returned
  | exit (code : Int)
deriving DecidableEq, Repr

/-- Go: HasExistingBookmarks (bookmarks.go 101-122). -/
def HasExistingBookmarks {σ : Type} (mmClient : Client4 σ) (w : σ) (channelID : GoString) :
    (Bool × GoError) × σ :=
  let r := mmClient.ListChannelBookmarksForChannel w channelID 0
  if r.1.err ≠ none then ((false, r.1.err), r.2)
  else if r.1.StatusCode ≠ 200 ∧ r.1.StatusCode ≠ 201 then
    ((false, some (goString "bad HTTP response")), r.2)
  else if r.1.value.length = 0 then ((false, none), r.2)
  else ((true, none), r.2)

/-- The deletion loop of DeleteExistingBookmarks (bookmarks.go 140-152): a
transport error returns, a bad status is only logged. -/
def deleteBookmarksLoop {σ : Type} (mmClient : Client4 σ) (channelID : GoString) :
    List ChannelBookmark → σ → GoError × σ
  | [], w => (none, w)
  | bookmark :: rest, w =>
    let r := mmClient.DeleteChannelBookmark w channelID bookmark.Id
    if r.1.err ≠ none then (r.1.err, r.2)
    else deleteBookmarksLoop mmClient channelID rest r.2

/-- Go: DeleteExistingBookmarks (bookmarks.go 124-155). -/
def DeleteExistingBookmarks {σ : Type} (mmClient : Client4 σ) (w : σ) (channelID : GoString) :
    GoError × σ :=
  let r := mmClient.ListChannelBookmarksForChannel w channelID 0
  if r.1.err ≠ none then (r.1.err, r.2)
  else if r.1.StatusCode ≠ 200 ∧ r.1.StatusCode ≠ 201 then
    (some (goString "bad HTTP response"), r.2)
  else deleteBookmarksLoop mmClient channelID r.1.value r.2

/-- The payload built for one configured bookmark (bookmarks.go 163-169). -/
def bookmarkPayload (channelID : GoString) (bookmark : Bookmark) : ChannelBookmark :=
  { Id := [], ChannelId := channelID, DisplayName := bookmark.DisplayName,
    LinkUrl := bookmark.LinkURL, Emoji := bookmark.Emoji, Type_ := goString "link" }

/-- The loop of CreateBookmarks (bookmarks.go 162-181). -/
def createBookmarksLoop {σ : Type} (mmClient : Client4 σ) (channelID : GoString) :
    List Bookmark → σ → GoError × σ
  | [], w => (none, w)
  | bookmark :: rest, w =>
    let r := mmClient.CreateChannelBookmark w (bookmarkPayload channelID bookmark)
    if r.1.err ≠ none then (r.1.err, r.2)
    else if r.1.StatusCode ≠ 200 ∧ r.1.StatusCode ≠ 201 then
      (some (goString "bad HTTP response"), r.2)
    else createBookmarksLoop mmClient channelID rest r.2

/-- Go: CreateBookmarks (bookmarks.go 157-184). -/
def CreateBookmarks {σ : Type} (mmClient : Client4 σ) (w : σ) (channelID : GoString)
    (config : Config) : GoError × σ :=
  createBookmarksLoop mmClient channelID config.Bookmarks w

/-- The end of ProcessChannelBookmarks (bookmarks.go 219-224). -/
def createOrExit {σ : Type} (mmClient : Client4 σ) (w : σ) (channelID : GoString)
    (config : Config) : Outcome × σ :=
  let r := CreateBookmarks mmClient w channelID config
  if r.1 ≠ none then (Outcome.exit 42, r.2) else (Outcome.returned, r.2)

/-- Go: ProcessChannelBookmarks (bookmarks.go 186-226); none when the bookmark
menu never ends. -/
def ProcessChannelBookmarks {σ : Type} (mmClient : Client4 σ) (w : σ) (channelID : GoString)
    (config : Config) (tty : Terminal) : Option (Outcome × σ) :=
  if config.Bookmarks.length = 0 then some (Outcome.returned, w)
  else
    let h := HasExistingBookmarks mmClient w channelID
    if h.1.2 ≠ none then some (Outcome.exit 41, h.2)
    else if h.1.1 then
      (RunBookmarkMenu tty).bind fun action =>
        if action = BookmarkReplace then
          let d := DeleteExistingBookmarks mmClient h.2 channelID
          if d.1 ≠ none then some (Outcome.exit 45, d.2)
          else some (createOrExit mmClient d.2 channelID config)
        else if action = BookmarkAppend then
          some (createOrExit mmClient h.2 channelID config)
        else if action = BookmarkAbort then
          some (Outcome.returned, h.2)
        else some (createOrExit mmClient h.2 channelID config)
    else some (createOrExit mmClient h.2 channelID config)

/-! ## pinned_posts.go and channel_header.go: the remote flows -/

/-- The fields of model.Channel read by the code. -/
structure Channel where
  Header : GoString
  TeamId : GoString
deriving DecidableEq, Repr

/-- The fields of model.Team read by the code. -/
structure Team where
  Name : GoString
deriving DecidableEq, Repr

/-- The fields of the model.Post payload set by CreatePinnedPost. -/
structure PostPayload where
  ChannelId : GoString
  IsPinned : Bool
  Message : GoString
deriving DecidableEq, Repr

/-- The channel, team and post operations of model.Client4 and its URL field,
as functions passing the state of the remote server. The last string argument
of the three getters is the etag. -/
structure ChannelClient (σ : Type) where
  URL : GoString
  GetChannel : σ → GoString → GoString → Reply Channel × σ
  GetTeam : σ → GoString → GoString → Reply Team × σ
  PatchChannel : σ → GoString → GoString → Reply Unit × σ
  GetPinnedPosts : σ → GoString → GoString → Reply PostList × σ
  CreatePost : σ → PostPayload → Reply Post × σ

/-- How ProcessPinnedPosts ends: it returns a link, or it calls os.Exit. -/
inductive LinkOutcome where
  | returned (link : GoString)
  | exit (code : Int)
deriving DecidableEq, Repr

/-- Go: BuildLinkToPinnedPost (pinned_posts.go 152-192). -/
def BuildLinkToPinnedPost {σ : Type} (mmClient : ChannelClient σ) (w : σ)
    (channelID postID : GoString) : (GoString × GoError) × σ :=
  let c := mmClient.GetChannel w channelID []
  if c.1.err ≠ none then (([], c.1.err), c.2)
  else if c.1.StatusCode ≠ 200 then (([], some (goString "bad HTTP response")), c.2)
  else
    let t := mmClient.GetTeam c.2 c.1.value.TeamId []
    if t.1.err ≠ none then (([], t.1.err), t.2)
    else if t.1.StatusCode ≠ 200 then (([], some (goString "bad HTTP response")), t.2)
    else
      ((mmClient.URL ++ goString "/" ++ t.1.value.Name ++ goString "/pl/" ++ postID, none), t.2)

/-- One table row of the pinned post: Sprintf("| [%s](%s) | %s |\n", ...)
(pinned_posts.go 280). -/
def resourceRow (row : Resource) : GoString :=
  goString "| [" ++ row.DisplayName ++ goString "](" ++ row.URL ++ goString ") | "
    ++ row.Description ++ goString " |\n"

/-- The message of the pinned post (pinned_posts.go 275-282). -/
def pinnedPostMessage (jsonRows : Config) : GoString :=
  goString "## Additional Resources\n\n\n"
    ++ goString "| Resource                                                                                                        | Description                                                                                                     |\n"
    ++ goString "| --------------------------------------------------------------------------------------------------------------- | --------------------------------------------------------------------------------------------------------------- |\n"
    ++ jsonRows.Resources.flatMap resourceRow

/-- Go: CreatePinnedPost (pinned_posts.go 270-303). -/
def CreatePinnedPost {σ : Type} (mmClient : ChannelClient σ) (w : σ) (channelID : GoString)
    (jsonRows : Config) : (GoString × GoError) × σ :=
  let r := mmClient.CreatePost w
    { ChannelId := channelID, IsPinned := true, Message := pinnedPostMessage jsonRows }
  if r.1.err ≠ none then (([], r.1.err), r.2)
  else if r.1.StatusCode ≠ 201 then (([], some (goString "bad HTTP response")), r.2)
  else ((r.1.value.Id, none), r.2)

/-- The end of ProcessPinnedPosts (pinned_posts.go 337-346). -/
def buildLinkOrExit {σ : Type} (mmClient : ChannelClient σ) (w : σ)
    (channelID pinnedPostID : GoString) : LinkOutcome × σ :=
  let b := BuildLinkToPinnedPost mmClient w channelID pinnedPostID
  if b.1.2 ≠ none then (LinkOutcome.exit 7, b.2) else (LinkOutcome.returned b.1.1, b.2)

/-- Go: ProcessPinnedPosts (pinned_posts.go 305-347), with the remote call of
GetPinnedPost made first; none when GetPinnedPost does not return. -/
def ProcessPinnedPosts {σ : Type} (mmClient : ChannelClient σ) (w : σ)
    (MattermostChannel : GoString) (config : Config) (tty : Terminal) :
    Option (LinkOutcome × σ) :=
  let g := mmClient.GetPinnedPosts w MattermostChannel []
  (GetPinnedPost g.1 tty).bind fun r =>
    if r.2 ≠ none then some (LinkOutcome.exit 4, g.2)
    else
      let pinnedPost := r.1
      if pinnedPost.SelectionType = goString "PinnedPost" then
        some (buildLinkOrExit mmClient g.2 MattermostChannel pinnedPost.PostID)
      else if pinnedPost.SelectionType = goString "AddNew" then
        let c := CreatePinnedPost mmClient g.2 MattermostChannel config
        if c.1.2 ≠ none then some (LinkOutcome.exit 6, c.2)
        else some (buildLinkOrExit mmClient c.2 MattermostChannel c.1.1)
      else if pinnedPost.SelectionType = goString "Skip" then
        some (LinkOutcome.returned [], g.2)
      else if pinnedPost.SelectionType = goString "Abort" then
        some (LinkOutcome.exit 0, g.2)
      else some (LinkOutcome.exit 3, g.2)

/-! ## channel_header.go -/

/-- Go: ChannelHeaderExists (channel_header.go 14-36). -/
def ChannelHeaderExists {σ : Type} (mmClient : ChannelClient σ) (w : σ) (channelID : GoString) :
    (Bool × GoError) × σ :=
  let c := mmClient.GetChannel w channelID []
  if c.1.err ≠ none then ((false, c.1.err), c.2)
  else if c.1.StatusCode ≠ 200 then ((false, some (goString "bad HTTP response")), c.2)
  else if c.1.value.Header.length > 0 then ((true, none), c.2)
  else ((false, none), c.2)

/-- One team row of the header: Sprintf("%s - [%s](%s)\n\n", ...)
(channel_header.go 47). -/
def personRow (person : Person) : GoString :=
  person.Role ++ goString " - [" ++ person.Name ++ goString "](" ++ person.Email
    ++ goString ")\n\n"

/-- One bookmark row of the header: Sprintf("|[%s](%s)|\n", ...)
(channel_header.go 55). -/
def bookmarkRow (bookmark : Bookmark) : GoString :=
  goString "|[" ++ bookmark.DisplayName ++ goString "](" ++ bookmark.LinkURL ++ goString ")|\n"

/-- The header text built by CreateChannelHeader (channel_header.go 44-57). -/
def channelHeader (config : Config) : GoString :=
  goString "Important Data (hover for expanded view)\n\n"
    ++ config.Team.flatMap personRow
    ++ goString "| Key Resources |\n"
    ++ goString "| -- |\n"
    ++ config.Bookmarks.flatMap bookmarkRow

/-- Go: CreateChannelHeader (channel_header.go 38-75). -/
def CreateChannelHeader {σ : Type} (mmClient : ChannelClient σ) (w : σ) (channelID : GoString)
    (config : Config) : GoError × σ :=
  let r := mmClient.PatchChannel w channelID (channelHeader config)
  if r.1.err ≠ none then (r.1.err, r.2)
  else if r.1.StatusCode ≠ 200 then (some (goString "bad HTTP response"), r.2)
  else (none, r.2)

/-- The result of reader.ReadString on standard input: the bytes read, line
feed included, and the error. -/
structure ReadResult where
  line : GoString
  err : GoError
deriving DecidableEq, Repr

/-- The Unicode part of the Go library functions strings.TrimSpace and
strings.ToLower: their results on a string holding a byte outside ASCII, which
depend on the Unicode tables. On ASCII strings the functions are fixed below. -/
structure UnicodeStrings where
  TrimSpace : GoString → GoString
  ToLower : GoString → GoString

/-- Every byte is below utf8.RuneSelf. -/
def isASCII (s : GoString) : Bool := s.all fun b => b.toNat < 128

/-- The ASCII white space of the Go strings package: tab, line feed, vertical
tab, form feed, carriage return, space. -/
def asciiSpace (b : UInt8) : Bool :=
  b.toNat = 9 || b.toNat = 10 || b.toNat = 11 || b.toNat = 12 || b.toNat = 13 || b.toNat = 32

/-- The lower-case form of an ASCII byte. -/
def asciiLower (b : UInt8) : UInt8 :=
  if 65 ≤ b.toNat ∧ b.toNat ≤ 90 then UInt8.ofNat (b.toNat + 32) else b

/-- Go: strings.TrimSpace, leading and trailing white space removed. -/
def stringsTrimSpace (u : UnicodeStrings) (s : GoString) : GoString :=
  if isASCII s then ((s.dropWhile asciiSpace).reverse.dropWhile asciiSpace).reverse
  else u.TrimSpace s

/-- Go: strings.ToLower. -/
def stringsToLower (u : UnicodeStrings) (s : GoString) : GoString :=
  if isASCII s then s.map asciiLower else u.ToLower s

/-- The end of ProcessChannelHeader (channel_header.go 106-116), given the
answer held by the variable input. -/
def confirmAndPatch {σ : Type} (mmClient : ChannelClient σ) (u : UnicodeStrings) (w : σ)
    (MattermostChannel : GoString) (config : Config) (input : GoString) : Outcome × σ :=
  let input := stringsTrimSpace u input
  if stringsToLower u input = goString "y" then
    let c := CreateChannelHeader mmClient w MattermostChannel config
    if c.1 ≠ none then (Outcome.exit 31, c.2) else (Outcome.returned, c.2)
  else (Outcome.returned, w)

/-- Go: ProcessChannelHeader (channel_header.go 77-118); stdin is what the
read of the confirmation line yields, consulted only when a header exists. -/
def ProcessChannelHeader {σ : Type} (mmClient : ChannelClient σ) (u : UnicodeStrings) (w : σ)
    (MattermostChannel : GoString) (config : Config) (stdin : ReadResult) : Outcome × σ :=
  if config.Bookmarks.length = 0 then (Outcome.returned, w)
  else
    let h := ChannelHeaderExists mmClient w MattermostChannel
    if h.1.2 ≠ none then (Outcome.exit 8, h.2)
    else if h.1.1 then
      if stdin.err ≠ none then (Outcome.exit 9, h.2)
      else confirmAndPatch mmClient u h.2 MattermostChannel config stdin.line
    else confirmAndPatch mmClient u h.2 MattermostChannel config (goString "y")

/-! ## main.go: the flows after the configuration is loaded -/

/-- The bookmark pointing to the pinned post is appended (main.go 194-202). -/
def appendPinnedLink (config : Config) (linkToPinnedPost : GoString) : Config :=
  if linkToPinnedPost.length > 0 then
    if config.Bookmarks.length > 0 then
      { config with Bookmarks := config.Bookmarks ++
          [{ DisplayName := goString "Additional Resources", LinkURL := linkToPinnedPost,
             Emoji := goString ":bulb:" }] }
    else config
  else config

/-- The header flow, unless disabled, then the bookmark flow (main.go 204-209);
none when the bookmark menu never ends. -/
def headerAndBookmarkFlows {σ : Type} (mmClient : ChannelClient σ) (bookmarkClient : Client4 σ)
    (u : UnicodeStrings) (w : σ) (MattermostChannel : GoString) (NoHeaderFlag : Bool)
    (config : Config) (stdin : ReadResult) (ttyBookmarks : Terminal) : Option (Outcome × σ) :=
  let h := if NoHeaderFlag then (Outcome.returned, w)
    else ProcessChannelHeader mmClient u w MattermostChannel config stdin
  match h.1 with
  | Outcome.exit code => some (Outcome.exit code, h.2)
  | Outcome.returned =>
    ProcessChannelBookmarks bookmarkClient h.2 MattermostChannel config ttyBookmarks

/-- Go: main after the configuration is loaded (main.go 190-209): the
pinned-post flow, the append of its link, the header and bookmark flows. The
two client records are the two groups of operations of the one mmClient. -/
def mainFlows {σ : Type} (mmClient : ChannelClient σ) (bookmarkClient : Client4 σ)
    (u : UnicodeStrings) (w : σ) (MattermostChannel : GoString) (NoHeaderFlag : Bool)
    (config : Config) (ttyPosts : Terminal) (stdin : ReadResult) (ttyBookmarks : Terminal) :
    Option (Outcome × σ) :=
  (ProcessPinnedPosts mmClient w MattermostChannel config ttyPosts).bind fun p =>
    match p.1 with
    | LinkOutcome.exit code => some (Outcome.exit code, p.2)
    | LinkOutcome.returned linkToPinnedPost =>
      headerAndBookmarkFlows mmClient bookmarkClient u p.2 MattermostChannel NoHeaderFlag
        (appendPinnedLink config linkToPinnedPost) stdin ttyBookmarks

/-! ## config.go and main.go: start-up -/

/-- The file system and the JSON decoder, as LoadConfig uses them: os.Open with
the reading of the file, and Decode into a Config. -/
structure FileSystem where
  Open : GoString → Except GoString GoString
  Decode : GoString → Except GoString Config

/-- Go: LoadConfig (config.go 35-47): the configuration, or the error. -/
def LoadConfig (fs : FileSystem) (filename : GoString) : Except GoString Config :=
  match fs.Open filename with
  | Except.error err => Except.error (goString "failed to open file: " ++ err)
  | Except.ok file =>
    match fs.Decode file with
    | Except.error err => Except.error (goString "failed to decode JSON: " ++ err)
    | Except.ok config => Except.ok config

/-- How ProcessConfigFile ends: it returns the configuration, or it calls os.Exit. -/
inductive ConfigOutcome where
  | loaded (config : Config)
  | exit (code : Int)
deriving DecidableEq, Repr

/-- Go: ProcessConfigFile (config.go 91-110); the three Process functions it
calls only log. -/
def ProcessConfigFile (fs : FileSystem) (ConfigFilename : GoString) : ConfigOutcome :=
  match LoadConfig fs ConfigFilename with
  | Except.error _ => ConfigOutcome.exit 12
  | Except.ok config => ConfigOutcome.loaded config

/-- The variables bound by flag.Parse (main.go 83-110). -/
structure Flags where
  MattermostURL : GoString
  MattermostPort : GoString
  MattermostScheme : GoString
  MattermostToken : GoString
  MattermostChannel : GoString
  ConfigFilename : GoString
  NoHeaderFlag : Bool
  DebugFlag : Bool
  VersionFlag : Bool
deriving DecidableEq, Repr

def defaultPort : GoString := goString "443"

def defaultScheme : GoString := goString "https"

/-- Go: getEnvWithDefault (main.go 70-76) with a string default; LookupEnv is
os.LookupEnv on the environment of the process. -/
def getEnvWithDefault (LookupEnv : GoString → Option GoString) (key defaultValue : GoString) :
    GoString :=
  match LookupEnv key with
  | none => defaultValue
  | some value => value

/-- Go: main after flag.Parse (main.go 112-211). NewAPIv4Client stands for
model.NewAPIv4Client(mmTarget) followed by SetToken. The result is none on a
panic (with -debug unset and MM_DEBUG present the type assertion to bool is
applied to a string) and when a menu never ends. -/
def mainProgram {σ : Type} (flags : Flags) (LookupEnv : GoString → Option GoString)
    (fs : FileSystem) (NewAPIv4Client : GoString → GoString → ChannelClient σ × Client4 σ)
    (u : UnicodeStrings) (w : σ) (ttyPosts : Terminal) (stdin : ReadResult)
    (ttyBookmarks : Terminal) : Option (Outcome × σ) :=
  if flags.VersionFlag then some (Outcome.exit 0, w)
  else
    let MattermostURL :=
      if flags.MattermostURL = [] then getEnvWithDefault LookupEnv (goString "MM_URL") []
      else flags.MattermostURL
    let MattermostPort :=
      if flags.MattermostPort = [] then
        getEnvWithDefault LookupEnv (goString "MM_PORT") defaultPort
      else flags.MattermostPort
    let MattermostScheme :=
      if flags.MattermostScheme = [] then
        getEnvWithDefault LookupEnv (goString "MM_SCHEME") defaultScheme
      else flags.MattermostScheme
    let MattermostToken :=
      if flags.MattermostToken = [] then getEnvWithDefault LookupEnv (goString "MM_TOKEN") []
      else flags.MattermostToken
    if flags.DebugFlag = false ∧ (LookupEnv (goString "MM_DEBUG")).isSome then none
    else if MattermostURL = [] ∨ MattermostScheme = [] ∨ MattermostToken = []
        ∨ flags.MattermostChannel = [] then
      some (Outcome.exit 1, w)
    else
      let mmTarget :=
        MattermostScheme ++ goString "://" ++ MattermostURL ++ goString ":" ++ MattermostPort
      let mmClient := NewAPIv4Client mmTarget MattermostToken
      match ProcessConfigFile fs flags.ConfigFilename with
      | ConfigOutcome.exit code => some (Outcome.exit code, w)
      | ConfigOutcome.loaded config =>
        mainFlows mmClient.1 mmClient.2 u w flags.MattermostChannel flags.NoHeaderFlag config
          ttyPosts stdin ttyBookmarks

/-! ## A model of the remote server -/

/-- A remote call, as recorded by the server model. -/
inductive RemoteCall where
  | list (channelID : GoString) (since : Int)
  | delete (channelID : GoString) (bookmarkID : GoString)
  | create (bookmark : ChannelBookmark)
deriving DecidableEq, Repr

/-- The server model: the bookmarks it holds and the calls received, oldest first. -/
structure BookmarkStore where
  bookmarks : List ChannelBookmark
  calls : List RemoteCall
deriving DecidableEq, Repr

/-- The identifier the server model gives to the bookmark created by its n-th call. -/
def newBookmarkId (n : Nat) : GoString := goString "bm-" ++ List.replicate (n + 1) 105

/-- A server seen through model.Client4: listing answers 200 with the bookmarks
of the channel, creation answers 201 and stores the payload under a new id,
deletion answers with the status deleteStatus and removes the bookmark with
that id from the channel when that status is of the 2xx class. As the client
library does, a deletion status outside the 2xx class, and a 204 whose empty
body it cannot decode, come with a non-nil error; every other 2xx status comes
with a nil error. With deleteStatus = 200 every call succeeds. -/
def storeClient (deleteStatus : Int) : Client4 BookmarkStore where
  ListChannelBookmarksForChannel := fun w channelID since =>
    ({ value := w.bookmarks.filter fun b => b.ChannelId = channelID,
       StatusCode := 200, err := none },
     { w with calls := w.calls ++ [RemoteCall.list channelID since] })
  DeleteChannelBookmark := fun w channelID bookmarkID =>
    ({ value := (), StatusCode := deleteStatus,
       err :=
         if 200 ≤ deleteStatus ∧ deleteStatus < 300 ∧ deleteStatus ≠ 204 then none
         else some (goString "request failed") },
     { bookmarks :=
         if 200 ≤ deleteStatus ∧ deleteStatus < 300 then
           w.bookmarks.filter fun b => ¬ (b.ChannelId = channelID ∧ b.Id = bookmarkID)
         else w.bookmarks,
       calls := w.calls ++ [RemoteCall.delete channelID bookmarkID] })
  CreateChannelBookmark := fun w bookmark =>
    ({ value := (), StatusCode := 201, err := none },
     { bookmarks := w.bookmarks ++ [{ bookmark with Id := newBookmarkId w.calls.length }],
       calls := w.calls ++ [RemoteCall.create bookmark] })

/-- The configured entry a stored bookmark stands for. -/
def ChannelBookmark.toBookmark (b : ChannelBookmark) : Bookmark :=
  { DisplayName := b.DisplayName, LinkURL := b.LinkUrl, Emoji := b.Emoji }

/-- The arrow keys. -/
def arrowKeys : List Msg :=
  [Msg.KeyMsg (goString "up"), Msg.KeyMsg (goString "down"),
   Msg.KeyMsg (goString "left"), Msg.KeyMsg (goString "right")]

/-- The page invariant: the page size is positive and the current page starts
inside the post list (page 0 also when the list is empty). -/
def PaginationModel.PageOk (m : PaginationModel) : Prop :=
  0 < m.perPage ∧ 0 ≤ m.currentPage ∧
    (m.currentPage = 0 ∨ m.currentPage * m.perPage < (m.posts.length : Int))

/-- The cursor invariant: the option list exists and the cursor points into it. -/
def PaginationModel.CursorOk (m : PaginationModel) : Prop :=
  ∃ opts, m.visibleOptions = some opts ∧ 0 ≤ m.selection ∧ m.selection < (opts.length : Int)

/-- A concrete menu state: three posts, two per page, showing the second page. -/
def demoModel : PaginationModel :=
  { posts := [{ PostID := goString "p1", Message := goString "Welcome" },
              { PostID := goString "p2", Message := goString "Rules" },
              { PostID := goString "p3", Message := goString "Links" }],
    currentPage := 1, perPage := 2, selection := 0, done := false, selected := [] }

/-- Two pinned posts with the same first line, as left by two runs of this
program that each added a resources post. -/
def twoResourcePosts : Reply PostList :=
  { value :=
      { Order := [goString "p1", goString "p2"],
        Posts :=
          [(goString "p1",
             { Id := goString "p1", Message := goString "## Additional Resources\n| old |" }),
           (goString "p2",
             { Id := goString "p2", Message := goString "## Additional Resources\n| new |" })] },
    StatusCode := 200, err := none }

/-- One pinned post whose text is the word Abort. -/
def abortPost : Reply PostList :=
  { value :=
      { Order := [goString "p1"],
        Posts := [(goString "p1", { Id := goString "p1", Message := goString "Abort" })] },
    StatusCode := 200, err := none }

/-- The keys moving the cursor of the bookmark menu. -/
def upDownKeys : List Msg := [Msg.KeyMsg (goString "up"), Msg.KeyMsg (goString "down")]

/-- A sample key sequence for the bookmark menu. -/
def demoKeys : List Msg :=
  [Msg.KeyMsg (goString "down"), Msg.KeyMsg (goString "down"), Msg.KeyMsg (goString "up")]

/-- The bookmarks the server model holds for a channel. -/
def BookmarkStore.ofChannel (w : BookmarkStore) (channelID : GoString) : List ChannelBookmark :=
  w.bookmarks.filter fun b => b.ChannelId = channelID

/-- The bookmarks the server model holds for the other channels. -/
def BookmarkStore.ofOthers (w : BookmarkStore) (channelID : GoString) : List ChannelBookmark :=
  w.bookmarks.filter fun b => ¬ b.ChannelId = channelID

/-- A sample channel. -/
def demoChannel : GoString := goString "ch1"

/-- A sample server state: two bookmarks on the sample channel, one elsewhere. -/
def demoStore : BookmarkStore :=
  { bookmarks :=
      [{ Id := goString "b1", ChannelId := goString "ch1", DisplayName := goString "Docs",
         LinkUrl := goString "https://d", Emoji := goString ":book:", Type_ := goString "link" },
       { Id := goString "b2", ChannelId := goString "ch2", DisplayName := goString "Ops",
         LinkUrl := goString "https://o", Emoji := goString ":gear:", Type_ := goString "link" },
       { Id := goString "b3", ChannelId := goString "ch1", DisplayName := goString "Old",
         LinkUrl := goString "https://x", Emoji := goString ":x:", Type_ := goString "link" }],
    calls := [] }

/-- A sample configuration with two bookmarks. -/
def demoConfig : Config :=
  { Team := [],
    Bookmarks :=
      [{ DisplayName := goString "Wiki", LinkURL := goString "https://w", Emoji := goString ":w:" },
       { DisplayName := goString "Chat", LinkURL := goString "https://c", Emoji := goString ":c:" }],
    Resources := [] }

/-- A sample sequence of arrow keys. -/
def demoArrows : List Msg :=
  [Msg.KeyMsg (goString "down"), Msg.KeyMsg (goString "right"), Msg.KeyMsg (goString "down"),
   Msg.KeyMsg (goString "left"), Msg.KeyMsg (goString "up")]

/-- A sample key sequence for the pinned-post menu: to the next page, to its
navigation entry, enter (back to page 0), an unbound key, then enter on a post. -/
def demoMenuKeys : List Msg :=
  [Msg.KeyMsg (goString "right"), Msg.KeyMsg (goString "down"), Msg.KeyMsg (goString "enter"),
   Msg.KeyMsg (goString "x"), Msg.KeyMsg (goString "enter")]

/-- A channel, team or post call, as recorded by the server model. -/
inductive ChannelCall where
  | getChannel (channelID etag : GoString)
  | getTeam (teamID etag : GoString)
  | patchChannel (channelID header : GoString)
  | getPinnedPosts (channelID etag : GoString)
  | createPost (payload : PostPayload)
deriving DecidableEq, Repr

/-- The server model for one channel: the channel, its team, its pinned posts
and the calls received, oldest first. -/
structure ChannelServer where
  channel : Channel
  team : Team
  pinned : PostList
  calls : List ChannelCall
deriving DecidableEq, Repr

/-- The identifier the server model gives to the post created by its n-th call. -/
def newPostId (n : Nat) : GoString := goString "post-" ++ List.replicate (n + 1) 105

/-- A server on which every call succeeds: the getters answer 200 with the
stored data, PatchChannel answers 200 and replaces the header, CreatePost
answers 201 and stores the post, pinned, under a new id. -/
def serverClient (url : GoString) : ChannelClient ChannelServer where
  URL := url
  GetChannel := fun w channelID etag =>
    ({ value := w.channel, StatusCode := 200, err := none },
     { w with calls := w.calls ++ [ChannelCall.getChannel channelID etag] })
  GetTeam := fun w teamID etag =>
    ({ value := w.team, StatusCode := 200, err := none },
     { w with calls := w.calls ++ [ChannelCall.getTeam teamID etag] })
  PatchChannel := fun w channelID header =>
    ({ value := (), StatusCode := 200, err := none },
     { w with channel := { w.channel with Header := header },
              calls := w.calls ++ [ChannelCall.patchChannel channelID header] })
  GetPinnedPosts := fun w channelID etag =>
    ({ value := w.pinned, StatusCode := 200, err := none },
     { w with calls := w.calls ++ [ChannelCall.getPinnedPosts channelID etag] })
  CreatePost := fun w payload =>
    ({ value := { Id := newPostId w.calls.length, Message := payload.Message },
       StatusCode := 201, err := none },
     { w with pinned :=
                { Order := w.pinned.Order ++ [newPostId w.calls.length],
                  Posts := w.pinned.Posts ++
                    [(newPostId w.calls.length,
                      { Id := newPostId w.calls.length, Message := payload.Message })] },
              calls := w.calls ++ [ChannelCall.createPost payload] })

/-- The call is a PatchChannel call. -/
def ChannelCall.isPatch : ChannelCall → Bool
  | ChannelCall.patchChannel _ _ => true
  | _ => false

/-- The channel operations on a server holding both models. -/
def ChannelClient.onFst (c : ChannelClient ChannelServer) :
    ChannelClient (ChannelServer × BookmarkStore) where
  URL := c.URL
  GetChannel := fun w channelID etag =>
    ((c.GetChannel w.1 channelID etag).1, ((c.GetChannel w.1 channelID etag).2, w.2))
  GetTeam := fun w teamID etag =>
    ((c.GetTeam w.1 teamID etag).1, ((c.GetTeam w.1 teamID etag).2, w.2))
  PatchChannel := fun w channelID header =>
    ((c.PatchChannel w.1 channelID header).1, ((c.PatchChannel w.1 channelID header).2, w.2))
  GetPinnedPosts := fun w channelID etag =>
    ((c.GetPinnedPosts w.1 channelID etag).1, ((c.GetPinnedPosts w.1 channelID etag).2, w.2))
  CreatePost := fun w payload =>
    ((c.CreatePost w.1 payload).1, ((c.CreatePost w.1 payload).2, w.2))

/-- The bookmark operations on a server holding both models. -/
def Client4.onSnd (c : Client4 BookmarkStore) : Client4 (ChannelServer × BookmarkStore) where
  ListChannelBookmarksForChannel := fun w channelID since =>
    ((c.ListChannelBookmarksForChannel w.2 channelID since).1,
      (w.1, (c.ListChannelBookmarksForChannel w.2 channelID since).2))
  DeleteChannelBookmark := fun w channelID bookmarkID =>
    ((c.DeleteChannelBookmark w.2 channelID bookmarkID).1,
      (w.1, (c.DeleteChannelBookmark w.2 channelID bookmarkID).2))
  CreateChannelBookmark := fun w bookmark =>
    ((c.CreateChannelBookmark w.2 bookmark).1,
      (w.1, (c.CreateChannelBookmark w.2 bookmark).2))

/-- The Unicode part taken as the identity, for evaluation on ASCII input. -/
def asciiOnly : UnicodeStrings := { TrimSpace := fun s => s, ToLower := fun s => s }

/-- A sample channel server: a channel with a header and one pinned post. -/
def demoServer : ChannelServer :=
  { channel := { Header := goString "old header", TeamId := goString "t1" },
    team := { Name := goString "team" },
    pinned :=
      { Order := [goString "p1"],
        Posts := [(goString "p1", { Id := goString "p1", Message := goString "Welcome" })] },
    calls := [] }

/-- The keys choosing Skip in the menu of the sample server: three down, enter. -/
def skipKeys : List Msg :=
  [Msg.KeyMsg (goString "down"), Msg.KeyMsg (goString "down"), Msg.KeyMsg (goString "down"),
   Msg.KeyMsg (goString "enter")]

/-- The bookmark appended for the pinned post (main.go 196-200). -/
def additionalResources (linkToPinnedPost : GoString) : Bookmark :=
  { DisplayName := goString "Additional Resources", LinkURL := linkToPinnedPost,
    Emoji := goString ":bulb:" }

/-- The os.Exit call sites of the program. -/
inductive ExitSite where
  | versionShown
  | missingParameters
  | configLoad
  | menuFailed
  | postCreation
  | userAbort
  | unexpectedSelection
  | linkBuilding
  | headerLookup
  | confirmationRead
  | headerCreation
  | bookmarkLookup
  | bookmarkDeletion
  | bookmarkCreation
deriving DecidableEq, Repr

/-- The code passed to os.Exit at each site: main.go 116 and 168, config.go
99, pinned_posts.go 311, 324, 331, 334 and 343, channel_header.go 90, 102 and
112, bookmarks.go 198, 210 and 223. -/
def ExitSite.code : ExitSite → Int
  | ExitSite.versionShown => 0
  | ExitSite.missingParameters => 1
  | ExitSite.configLoad => 12
  | ExitSite.menuFailed => 4
  | ExitSite.postCreation => 6
  | ExitSite.userAbort => 0
  | ExitSite.unexpectedSelection => 3
  | ExitSite.linkBuilding => 7
  | ExitSite.headerLookup => 8
  | ExitSite.confirmationRead => 9
  | ExitSite.headerCreation => 31
  | ExitSite.bookmarkLookup => 41
  | ExitSite.bookmarkDeletion => 45
  | ExitSite.bookmarkCreation => 42

/-- The sites reached on a failure, logged at error level before the exit; the
other two are the version display and the abort chosen by the user. -/
def ExitSite.fatal : ExitSite → Bool
  | ExitSite.versionShown => false
  | ExitSite.userAbort => false
  | _ => true

/-- All exit sites, in source order of the flows. -/
def ExitSite.all : List ExitSite :=
  [ExitSite.versionShown, ExitSite.missingParameters, ExitSite.configLoad,
   ExitSite.menuFailed, ExitSite.postCreation, ExitSite.userAbort,
   ExitSite.unexpectedSelection, ExitSite.linkBuilding, ExitSite.headerLookup,
   ExitSite.confirmationRead, ExitSite.headerCreation, ExitSite.bookmarkLookup,
   ExitSite.bookmarkDeletion, ExitSite.bookmarkCreation]

/-! ## Theorems -/

theorem goString_dots_length : (goString "...").length = 3 := by decide

/-- C1: for every byte string s and every maximum length n with 3 ≤ n, a string
longer than n is truncated to its first n-3 bytes followed by "...", a result
of length exactly n ending in "..."; a string of length at most n is returned
unchanged. -/
theorem truncateString_spec (s : GoString) (n : Int) (hn : 3 ≤ n) :
    ((s.length : Int) > n →
      ∃ r, truncateString s n = some r ∧
        r = s.take (n - 3).toNat ++ goString "..." ∧
        (r.length : Int) = n ∧ goString "..." <:+ r) ∧
    ((s.length : Int) ≤ n → truncateString s n = some s) := by
  constructor
  · intro hlen
    refine ⟨s.take (n - 3).toNat ++ goString "...", ?_, rfl, ?_, List.suffix_append _ _⟩
    · have hs : goSlice s 0 (n - 3) = some (s.take (n - 3).toNat) := by
        unfold goSlice
        rw [if_pos ⟨le_refl _, by omega, by omega⟩]
        simp
      simp [truncateString, hlen, hs]
    · rw [List.length_append, goString_dots_length, List.length_take]
      omega
  · intro hlen
    have : ¬ ((s.length : Int) > n) := by omega
    simp [truncateString, this]

theorem truncateString_spec_witness :
    (3 : Int) ≤ 10 ∧
    (((goString "Additional Resources").length : Int) > 10 →
      ∃ r, truncateString (goString "Additional Resources") 10 = some r ∧
        r = (goString "Additional Resources").take ((10 : Int) - 3).toNat ++ goString "..." ∧
        (r.length : Int) = 10 ∧ goString "..." <:+ r) ∧
    (((goString "Additional Resources").length : Int) ≤ 10 →
      truncateString (goString "Additional Resources") 10 = some (goString "Additional Resources")) :=
  ⟨by decide, truncateString_spec (goString "Additional Resources") 10 (by decide)⟩

theorem pageEnd_bounds (m : PaginationModel) (hk : 0 < m.perPage)
    (hle : m.currentPage * m.perPage ≤ (m.posts.length : Int)) :
    m.currentPage * m.perPage ≤ m.pageEnd ∧ m.pageEnd ≤ (m.posts.length : Int) := by
  unfold PaginationModel.pageEnd
  simp only
  split <;> omega

theorem visibleOptions_eq (m : PaginationModel) (h0 : 0 ≤ m.currentPage) (hk : 0 < m.perPage)
    (hle : m.currentPage * m.perPage ≤ (m.posts.length : Int)) :
    m.visibleOptions = some
      (((m.posts.drop (m.currentPage * m.perPage).toNat).take
          (m.pageEnd - m.currentPage * m.perPage).toNat).map PostSummary.Message
        ++ (if m.currentPage > 0 then [goString "Previous page"] else [])
        ++ (if m.pageEnd < (m.posts.length : Int) then [goString "Next page"] else [])
        ++ [goString "Add a new pinned post", goString "Abort", goString "Skip"]) := by
  have hb := pageEnd_bounds m hk hle
  have hs : 0 ≤ m.currentPage * m.perPage := mul_nonneg h0 (le_of_lt hk)
  unfold PaginationModel.visibleOptions goSlice
  simp only
  rw [if_pos ⟨hs, hb.1, hb.2⟩]
  simp only [Option.map_some']
  congr 1
  split <;> split <;> simp


theorem visibleOptions_congr (m m1 : PaginationModel) (hp : m1.posts = m.posts)
    (hc : m1.currentPage = m.currentPage) (hk : m1.perPage = m.perPage) :
    m1.visibleOptions = m.visibleOptions := by
  unfold PaginationModel.visibleOptions PaginationModel.pageEnd
  rw [hp, hc, hk]

theorem visibleOptions_length_pos (m : PaginationModel) (opts : List GoString)
    (h : m.visibleOptions = some opts) : 3 ≤ opts.length := by
  unfold PaginationModel.visibleOptions at h
  simp only [Option.map_eq_some'] at h
  obtain ⟨page, -, rfl⟩ := h
  simp

theorem cursorOk_of_page (m : PaginationModel) (h : m.PageOk) (hsel : m.selection = 0) :
    m.CursorOk := by
  obtain ⟨hk, h0, hlt⟩ := h
  have hle : m.currentPage * m.perPage ≤ (m.posts.length : Int) := by
    rcases hlt with h | h
    · rw [h]; simp
    · omega
  refine ⟨_, visibleOptions_eq m h0 hk hle, by omega, ?_⟩
  have := visibleOptions_length_pos m _ (visibleOptions_eq m h0 hk hle)
  omega

/-- One step of the menu keeps the page and cursor invariants and never panics. -/
theorem update_preserves (m : PaginationModel) (hp : m.PageOk) (hc : m.CursorOk) (msg : Msg) :
    ∃ m1 c, m.Update msg = some (m1, c) ∧ m1.posts = m.posts ∧ m1.perPage = m.perPage ∧
      m1.PageOk ∧ (c = Cmd.nil → m1.CursorOk) := by
  obtain ⟨opts, hopts, hs0, hs1⟩ := hc
  have hc : m.CursorOk := ⟨opts, hopts, hs0, hs1⟩
  obtain ⟨hk, h0, hlt⟩ := hp
  have hp : m.PageOk := ⟨hk, h0, hlt⟩
  have hidx : ∃ sel, goIndex opts m.selection = some sel := by
    unfold goIndex
    rw [if_pos ⟨hs0, hs1⟩]
    have : m.selection.toNat < opts.length := by omega
    exact ⟨opts[m.selection.toNat], List.getElem?_eq_getElem this⟩
  obtain ⟨sel, hsel⟩ := hidx
  have hnext : (m.currentPage + 1) * m.perPage < (m.posts.length : Int) →
      PaginationModel.PageOk { m with currentPage := m.currentPage + 1, selection := 0 } := by
    intro h
    exact ⟨hk, by show 0 ≤ m.currentPage + 1; omega, Or.inr h⟩
  have hprev : m.currentPage > 0 →
      PaginationModel.PageOk { m with currentPage := m.currentPage - 1, selection := 0 } := by
    intro h
    refine ⟨hk, by show 0 ≤ m.currentPage - 1; omega, ?_⟩
    show m.currentPage - 1 = 0 ∨ (m.currentPage - 1) * m.perPage < (m.posts.length : Int)
    have e : (m.currentPage - 1) * m.perPage = m.currentPage * m.perPage - m.perPage := by ring
    rcases hlt with h1 | h1
    · omega
    · right; omega
  cases msg with
  | other => exact ⟨m, Cmd.nil, rfl, rfl, rfl, hp, fun _ => hc⟩
  | KeyMsg key =>
    unfold PaginationModel.Update
    simp only [hopts, hsel, Option.some_bind]
    split_ifs
    all_goals first
      | exact ⟨_, _, rfl, rfl, rfl, hp, fun _ => hc⟩
      | exact ⟨_, _, rfl, rfl, rfl, hp, fun h => Cmd.noConfusion h⟩
      | exact ⟨_, _, rfl, rfl, rfl, hnext (by assumption),
          fun _ => cursorOk_of_page _ (hnext (by assumption)) rfl⟩
      | exact ⟨_, _, rfl, rfl, rfl, hprev (by assumption),
          fun _ => cursorOk_of_page _ (hprev (by assumption)) rfl⟩
      | exact ⟨_, _, rfl, rfl, rfl, hp, fun _ =>
          ⟨opts, (visibleOptions_congr _ m rfl rfl rfl).trans hopts,
            (by show 0 ≤ m.selection - 1; omega), (by show m.selection - 1 < _; omega)⟩⟩
      | exact ⟨_, _, rfl, rfl, rfl, hp, fun _ =>
          ⟨opts, (visibleOptions_congr _ m rfl rfl rfl).trans hopts,
            (by show 0 ≤ m.selection + 1; omega), (by show m.selection + 1 < _; omega)⟩⟩


theorem update_arrow_nil (m m1 : PaginationModel) (msg : Msg) (c : Cmd)
    (harrow : msg ∈ arrowKeys) (h : m.Update msg = some (m1, c)) : c = Cmd.nil := by
  simp only [arrowKeys, List.mem_cons, List.mem_singleton, List.not_mem_nil, or_false] at harrow
  rcases harrow with rfl | rfl | rfl | rfl
  · unfold PaginationModel.Update at h
    simp only at h
    rw [if_neg (by decide), if_neg (by decide), if_pos trivial] at h
    split_ifs at h <;> simp only [Option.some.injEq, Prod.mk.injEq] at h <;> exact h.2.symm
  · unfold PaginationModel.Update at h
    simp only at h
    rw [if_neg (by decide), if_neg (by decide), if_neg (by decide), if_pos trivial] at h
    cases hv : m.visibleOptions with
    | none => simp [hv] at h
    | some opts =>
      simp only [hv, Option.some_bind] at h
      split_ifs at h <;> simp only [Option.some.injEq, Prod.mk.injEq] at h <;> exact h.2.symm
  · unfold PaginationModel.Update at h
    simp only at h
    rw [if_neg (by decide), if_neg (by decide), if_neg (by decide), if_neg (by decide),
      if_pos trivial] at h
    split_ifs at h <;> simp only [Option.some.injEq, Prod.mk.injEq] at h <;> exact h.2.symm
  · unfold PaginationModel.Update at h
    simp only at h
    rw [if_neg (by decide), if_neg (by decide), if_neg (by decide), if_neg (by decide),
      if_neg (by decide), if_pos trivial] at h
    split_ifs at h <;> simp only [Option.some.injEq, Prod.mk.injEq] at h <;> exact h.2.symm

theorem run_arrows (keys : List Msg) :
    ∀ m : PaginationModel, m.PageOk → m.CursorOk → (∀ k ∈ keys, k ∈ arrowKeys) →
      ∃ m1, runProgram PaginationModel.Update m keys = RunState.running m1 ∧
        m1.posts = m.posts ∧ m1.perPage = m.perPage ∧ m1.PageOk ∧ m1.CursorOk := by
  induction keys with
  | nil => intro m hp hc _; exact ⟨m, rfl, rfl, rfl, hp, hc⟩
  | cons k rest ih =>
    intro m hp hc hk
    obtain ⟨m1, c, hu, hposts, hper, hp1, hc1⟩ := update_preserves m hp hc k
    have hnil : c = Cmd.nil := update_arrow_nil m m1 k c (hk k (List.mem_cons_self _ _)) hu
    subst hnil
    obtain ⟨m2, hrun, hposts2, hper2, hp2, hc2⟩ :=
      ih m1 hp1 (hc1 rfl) (fun k1 hk1 => hk k1 (List.mem_cons_of_mem _ hk1))
    refine ⟨m2, ?_, hposts2.trans hposts, hper2.trans hper, hp2, hc2⟩
    simp only [runProgram, hu]
    exact hrun

theorem newPaginationModel_ok (posts : List PostSummary) (perPage : Int) (hk : 0 < perPage) :
    (NewPaginationModel posts perPage).PageOk ∧ (NewPaginationModel posts perPage).CursorOk := by
  have hp : (NewPaginationModel posts perPage).PageOk := ⟨hk, le_refl _, Or.inl rfl⟩
  exact ⟨hp, cursorOk_of_page _ hp rfl⟩

/-- C2: for every list of post summaries and every positive page size, after
every prefix of every sequence of up/down/left/right keys run with
PaginationModel.Update from NewPaginationModel(posts, perPage), the menu is
still running, visibleOptions returns a list, and the selection index satisfies
0 ≤ selection ≤ len(visibleOptions()) - 1. -/
theorem pagination_cursor_invariant (posts : List PostSummary) (perPage : Int)
    (hk : 0 < perPage) (keys : List Msg) (harrow : ∀ k ∈ keys, k ∈ arrowKeys) (n : Nat) :
    ∃ m opts,
      runProgram PaginationModel.Update (NewPaginationModel posts perPage) (keys.take n)
        = RunState.running m ∧
      m.visibleOptions = some opts ∧ 0 ≤ m.selection ∧ m.selection ≤ (opts.length : Int) - 1 := by
  obtain ⟨hp, hc⟩ := newPaginationModel_ok posts perPage hk
  obtain ⟨m, hrun, -, -, -, opts, hopts, h0, h1⟩ :=
    run_arrows (keys.take n) _ hp hc (fun k hk1 => harrow k (List.mem_of_mem_take hk1))
  exact ⟨m, opts, hrun, hopts, h0, by omega⟩


theorem pagination_cursor_invariant_witness :
    (0 : Int) < 2 ∧ (∀ k ∈ demoArrows, k ∈ arrowKeys) ∧
    ∃ m opts,
      runProgram PaginationModel.Update (NewPaginationModel demoModel.posts 2)
        (demoArrows.take 3) = RunState.running m ∧
      m.visibleOptions = some opts ∧ 0 ≤ m.selection ∧ m.selection ≤ (opts.length : Int) - 1 :=
  ⟨by decide, by decide,
    pagination_cursor_invariant demoModel.posts 2 (by decide) demoArrows (by decide) 3⟩

theorem run_ok (msgs : List Msg) :
    ∀ m : PaginationModel, m.PageOk → m.CursorOk →
      (∃ m1, runProgram PaginationModel.Update m msgs = RunState.running m1 ∧
        m1.posts = m.posts ∧ m1.perPage = m.perPage ∧ m1.PageOk ∧ m1.CursorOk) ∨
      (∃ m1, runProgram PaginationModel.Update m msgs = RunState.finished m1 ∧
        m1.posts = m.posts ∧ m1.perPage = m.perPage ∧ m1.PageOk) := by
  induction msgs with
  | nil => intro m hp hc; exact Or.inl ⟨m, rfl, rfl, rfl, hp, hc⟩
  | cons k rest ih =>
    intro m hp hc
    obtain ⟨m1, c, hu, hposts, hper, hp1, hc1⟩ := update_preserves m hp hc k
    cases c with
    | Quit =>
      refine Or.inr ⟨m1, ?_, hposts, hper, hp1⟩
      simp only [runProgram, hu]
    | nil =>
      have hstep : runProgram PaginationModel.Update m (k :: rest)
          = runProgram PaginationModel.Update m1 rest := by
        simp only [runProgram, hu]
      rw [hstep]
      rcases ih m1 hp1 (hc1 rfl) with ⟨m2, hrun, hposts2, hper2, hp2, hc2⟩ | ⟨m2, hrun, hposts2, hper2, hp2⟩
      · exact Or.inl ⟨m2, hrun, hposts2.trans hposts, hper2.trans hper, hp2, hc2⟩
      · exact Or.inr ⟨m2, hrun, hposts2.trans hposts, hper2.trans hper, hp2⟩

theorem pageOk_le (m : PaginationModel) (h : m.PageOk) :
    m.currentPage * m.perPage ≤ (m.posts.length : Int) := by
  obtain ⟨_, _, hlt⟩ := h
  rcases hlt with h | h
  · rw [h]; simp
  · omega

theorem pageEnd_eq_min (m : PaginationModel) :
    m.pageEnd = min ((m.currentPage + 1) * m.perPage) (m.posts.length : Int) := by
  have e : (m.currentPage + 1) * m.perPage = m.currentPage * m.perPage + m.perPage := by ring
  unfold PaginationModel.pageEnd
  simp only
  rw [e]
  split <;> omega

theorem pageEnd_lt_iff (m : PaginationModel) :
    m.pageEnd < (m.posts.length : Int) ↔ (m.currentPage + 1) * m.perPage < (m.posts.length : Int) := by
  rw [pageEnd_eq_min]
  omega

/-- The option list in the terms of the specification. -/
theorem visibleOptions_page (m : PaginationModel) (h0 : 0 ≤ m.currentPage) (hk : 0 < m.perPage)
    (hle : m.currentPage * m.perPage ≤ (m.posts.length : Int)) :
    ∃ page, goSlice m.posts (m.currentPage * m.perPage)
        (min ((m.currentPage + 1) * m.perPage) (m.posts.length : Int)) = some page ∧
      page.length ≤ m.perPage.toNat ∧
      m.visibleOptions = some (page.map PostSummary.Message
        ++ (if m.currentPage > 0 then [goString "Previous page"] else [])
        ++ (if (m.currentPage + 1) * m.perPage < (m.posts.length : Int)
            then [goString "Next page"] else [])
        ++ [goString "Add a new pinned post", goString "Abort", goString "Skip"]) := by
  have hb := pageEnd_bounds m hk hle
  have hs : 0 ≤ m.currentPage * m.perPage := mul_nonneg h0 (le_of_lt hk)
  refine ⟨(m.posts.drop (m.currentPage * m.perPage).toNat).take
      (m.pageEnd - m.currentPage * m.perPage).toNat, ?_, ?_, ?_⟩
  · rw [← pageEnd_eq_min]
    unfold goSlice
    rw [if_pos ⟨hs, hb.1, hb.2⟩]
  · rw [List.length_take]
    have : m.pageEnd ≤ m.currentPage * m.perPage + m.perPage := by
      rw [pageEnd_eq_min]
      have e : (m.currentPage + 1) * m.perPage = m.currentPage * m.perPage + m.perPage := by ring
      omega
    omega
  · rw [visibleOptions_eq m h0 hk hle]
    simp only [pageEnd_lt_iff]

/-- C4: for every menu state with positive page size on a page p ≥ 0 with
p*perPage ≤ n = len(posts), visibleOptions returns, in this order, the messages
of posts[p*perPage .. min((p+1)*perPage, n)), then "Previous page" when p > 0,
then "Next page" when (p+1)*perPage < n, then "Add a new pinned post", "Abort",
"Skip"; its length is at most perPage + 5. With 5 posts and perPage = 2, page 0
is [post1, post2, "Next page", "Add a new pinned post", "Abort", "Skip"] and
page 2 is [post5, "Previous page", "Add a new pinned post", "Abort", "Skip"]. -/
theorem visibleOptions_spec (m : PaginationModel) (h0 : 0 ≤ m.currentPage)
    (hk : 0 < m.perPage) (hle : m.currentPage * m.perPage ≤ (m.posts.length : Int)) :
    (∃ page opts,
      goSlice m.posts (m.currentPage * m.perPage)
        (min ((m.currentPage + 1) * m.perPage) (m.posts.length : Int)) = some page ∧
      m.visibleOptions = some opts ∧
      opts = page.map PostSummary.Message
        ++ (if m.currentPage > 0 then [goString "Previous page"] else [])
        ++ (if (m.currentPage + 1) * m.perPage < (m.posts.length : Int)
            then [goString "Next page"] else [])
        ++ [goString "Add a new pinned post", goString "Abort", goString "Skip"] ∧
      (opts.length : Int) ≤ m.perPage + 5) ∧
    (∀ (p1 p2 p3 p4 p5 : PostSummary) (sel : Int) (d : Bool) (s : GoString),
      PaginationModel.visibleOptions
        { posts := [p1, p2, p3, p4, p5], currentPage := 0, perPage := 2,
          selection := sel, done := d, selected := s }
        = some [p1.Message, p2.Message, goString "Next page",
            goString "Add a new pinned post", goString "Abort", goString "Skip"] ∧
      PaginationModel.visibleOptions
        { posts := [p1, p2, p3, p4, p5], currentPage := 2, perPage := 2,
          selection := sel, done := d, selected := s }
        = some [p5.Message, goString "Previous page",
            goString "Add a new pinned post", goString "Abort", goString "Skip"]) := by
  constructor
  · obtain ⟨page, hpage, hlen, hopts⟩ := visibleOptions_page m h0 hk hle
    refine ⟨page, _, hpage, hopts, rfl, ?_⟩
    simp only [List.length_append, List.length_map, List.length_cons, List.length_nil]
    split <;> split <;> simp <;> omega
  · intro p1 p2 p3 p4 p5 sel d s
    constructor
    · rfl
    · rfl


theorem visibleOptions_spec_witness :
    (0 : Int) ≤ demoModel.currentPage ∧ 0 < demoModel.perPage ∧
    demoModel.currentPage * demoModel.perPage ≤ (demoModel.posts.length : Int) ∧
    ∃ page opts,
      goSlice demoModel.posts (demoModel.currentPage * demoModel.perPage)
        (min ((demoModel.currentPage + 1) * demoModel.perPage) (demoModel.posts.length : Int))
          = some page ∧
      demoModel.visibleOptions = some opts ∧
      opts = page.map PostSummary.Message
        ++ (if demoModel.currentPage > 0 then [goString "Previous page"] else [])
        ++ (if (demoModel.currentPage + 1) * demoModel.perPage < (demoModel.posts.length : Int)
            then [goString "Next page"] else [])
        ++ [goString "Add a new pinned post", goString "Abort", goString "Skip"] ∧
      (opts.length : Int) ≤ demoModel.perPage + 5 :=
  ⟨by decide, by decide, by decide,
    (visibleOptions_spec demoModel (by decide) (by decide) (by decide)).1⟩

/-- C3 (as stated): the membership form of the claim fails when a post summary on
page 0 itself reads "Previous page". -/
theorem nav_options_membership_counterexample :
    ¬ (∀ (posts : List PostSummary) (perPage : Int), 0 < perPage →
        ∀ (msgs : List Msg) (m : PaginationModel),
          runProgram PaginationModel.Update (NewPaginationModel posts perPage) msgs
            = RunState.running m →
          ∃ opts, m.visibleOptions = some opts ∧
            (goString "Previous page" ∈ opts ↔ m.currentPage > 0) ∧
            (goString "Next page" ∈ opts ↔
              (m.currentPage + 1) * m.perPage < (m.posts.length : Int))) := by
  intro h
  obtain ⟨opts, hopts, hprev, -⟩ :=
    h [{ PostID := goString "p1", Message := goString "Previous page" }] 2 (by decide) []
      (NewPaginationModel [{ PostID := goString "p1", Message := goString "Previous page" }] 2)
      rfl
  have hv : (NewPaginationModel
      [{ PostID := goString "p1", Message := goString "Previous page" }] 2).visibleOptions
      = some [goString "Previous page", goString "Add a new pinned post", goString "Abort",
          goString "Skip"] := rfl
  rw [hv] at hopts
  cases hopts
  have : (NewPaginationModel
      [{ PostID := goString "p1", Message := goString "Previous page" }] 2).currentPage > 0 :=
    hprev.mp (List.mem_cons_self _ _)
  exact absurd this (by decide)

/-- C3 (amended): for every list of post summaries, every positive page size and
every menu state reached from the initial model (still running, or just ended),
on its page p the list returned by visibleOptions contains "Previous page" if
and only if p > 0 or a post summary of the current page itself reads "Previous
page", and contains "Next page" if and only if (p+1)*perPage < len(posts) or a
post summary of the current page itself reads "Next page". -/
theorem nav_options_iff (posts : List PostSummary) (perPage : Int) (hk : 0 < perPage)
    (msgs : List Msg) (m : PaginationModel)
    (hrun : runProgram PaginationModel.Update (NewPaginationModel posts perPage) msgs
        = RunState.running m ∨
      runProgram PaginationModel.Update (NewPaginationModel posts perPage) msgs
        = RunState.finished m) :
    m.posts = posts ∧ m.perPage = perPage ∧
    ∃ page opts,
      goSlice posts (m.currentPage * perPage)
        (min ((m.currentPage + 1) * perPage) (posts.length : Int)) = some page ∧
      m.visibleOptions = some opts ∧
      (goString "Previous page" ∈ opts ↔
        (m.currentPage > 0 ∨ goString "Previous page" ∈ page.map PostSummary.Message)) ∧
      (goString "Next page" ∈ opts ↔
        ((m.currentPage + 1) * perPage < (posts.length : Int)
          ∨ goString "Next page" ∈ page.map PostSummary.Message)) := by
  obtain ⟨hp0, hc0⟩ := newPaginationModel_ok posts perPage hk
  have hm : m.posts = posts ∧ m.perPage = perPage ∧ m.PageOk := by
    rcases run_ok msgs _ hp0 hc0 with ⟨m1, h1, hposts, hper, hp1, -⟩ | ⟨m1, h1, hposts, hper, hp1⟩
    · rcases hrun with h | h
      · rw [h1] at h; cases h; exact ⟨hposts, hper, hp1⟩
      · rw [h1] at h; cases h
    · rcases hrun with h | h
      · rw [h1] at h; cases h
      · rw [h1] at h; cases h; exact ⟨hposts, hper, hp1⟩
  obtain ⟨hposts, hper, hp⟩ := hm
  obtain ⟨page, hpage, -, hopts⟩ := visibleOptions_page m hp.2.1 hp.1 (pageOk_le m hp)
  rw [hposts, hper] at hpage hopts
  refine ⟨hposts, hper, page, _, hpage, hopts, ?_, ?_⟩
  · have e1 : goString "Previous page" ≠ goString "Next page" := by decide
    have e2 : goString "Previous page" ≠ goString "Add a new pinned post" := by decide
    have e3 : goString "Previous page" ≠ goString "Abort" := by decide
    have e4 : goString "Previous page" ≠ goString "Skip" := by decide
    simp only [List.mem_append, List.mem_cons, List.not_mem_nil, or_false, e2, e3, e4]
    split <;> split <;> simp [e1, *]
  · have e1 : goString "Next page" ≠ goString "Previous page" := by decide
    have e2 : goString "Next page" ≠ goString "Add a new pinned post" := by decide
    have e3 : goString "Next page" ≠ goString "Abort" := by decide
    have e4 : goString "Next page" ≠ goString "Skip" := by decide
    simp only [List.mem_append, List.mem_cons, List.not_mem_nil, or_false, e2, e3, e4]
    split <;> split <;> simp [e1, *]

theorem nav_options_iff_witness :
    (0 : Int) < 2 ∧
    (runProgram PaginationModel.Update (NewPaginationModel demoModel.posts 2)
        [Msg.KeyMsg (goString "right")] = RunState.running demoModel ∨
      runProgram PaginationModel.Update (NewPaginationModel demoModel.posts 2)
        [Msg.KeyMsg (goString "right")] = RunState.finished demoModel) ∧
    demoModel.posts = demoModel.posts ∧ demoModel.perPage = 2 ∧
    ∃ page opts,
      goSlice demoModel.posts (demoModel.currentPage * 2)
        (min ((demoModel.currentPage + 1) * 2) (demoModel.posts.length : Int)) = some page ∧
      demoModel.visibleOptions = some opts ∧
      (goString "Previous page" ∈ opts ↔
        (demoModel.currentPage > 0 ∨ goString "Previous page" ∈ page.map PostSummary.Message)) ∧
      (goString "Next page" ∈ opts ↔
        ((demoModel.currentPage + 1) * 2 < (demoModel.posts.length : Int)
          ∨ goString "Next page" ∈ page.map PostSummary.Message)) :=
  ⟨by decide, Or.inl (by decide),
    nav_options_iff demoModel.posts 2 (by decide) [Msg.KeyMsg (goString "right")] demoModel
      (Or.inl (by decide))⟩

/-- C5: with two pinned posts sharing their first line, moving the cursor down to
the summary of the second post (p2) and pressing enter ends the menu, and
GetPinnedPost answers with type "PinnedPost" but with the identifier of the
first post (p1), not of the post under the cursor. -/
theorem getPinnedPost_duplicate_summary :
    postSummaries twoResourcePosts.value twoResourcePosts.value.Order
      = some [{ PostID := goString "p1", Message := goString "## Additional Resources" },
              { PostID := goString "p2", Message := goString "## Additional Resources" }] ∧
    runProgram PaginationModel.Update
        (NewPaginationModel
          [{ PostID := goString "p1", Message := goString "## Additional Resources" },
           { PostID := goString "p2", Message := goString "## Additional Resources" }]
          menuPostPerPage)
        [Msg.KeyMsg (goString "down")]
      = RunState.running
          { posts := [{ PostID := goString "p1", Message := goString "## Additional Resources" },
                      { PostID := goString "p2", Message := goString "## Additional Resources" }],
            currentPage := 0, perPage := 2, selection := 1, done := false, selected := [] } ∧
    GetPinnedPost twoResourcePosts
        (Terminal.input [Msg.KeyMsg (goString "down"), Msg.KeyMsg (goString "enter")])
      = some ({ SelectionType := goString "PinnedPost", PostID := goString "p1",
                Message := goString "## Additional Resources" }, none) := by
  refine ⟨by decide, by decide, by decide⟩

/-- C6: with a pinned post whose text is "Abort", pressing q ends the menu and
GetPinnedPost answers with type "PinnedPost" and that post, not with "Abort". -/
theorem getPinnedPost_quit_on_abort_post :
    runProgram PaginationModel.Update
        (NewPaginationModel [{ PostID := goString "p1", Message := goString "Abort" }]
          menuPostPerPage)
        [Msg.KeyMsg (goString "q")]
      = RunState.finished
          { posts := [{ PostID := goString "p1", Message := goString "Abort" }],
            currentPage := 0, perPage := 2, selection := -1, done := true,
            selected := goString "Abort" } ∧
    GetPinnedPost abortPost (Terminal.input [Msg.KeyMsg (goString "q")])
      = some ({ SelectionType := goString "PinnedPost", PostID := goString "p1",
                Message := goString "Abort" }, none) := by
  refine ⟨by decide, by decide⟩

theorem bookmark_update_keeps_abort (m : BookmarkActionModel) (msg : Msg)
    (hmsg : msg ≠ Msg.KeyMsg (goString "enter")) (hsel : m.selected = BookmarkAbort) :
    ∃ m1 c, m.Update msg = some (m1, c) ∧ m1.selected = BookmarkAbort := by
  cases msg with
  | other => exact ⟨m, Cmd.nil, rfl, hsel⟩
  | KeyMsg key =>
    have hkey : key ≠ goString "enter" := fun h => hmsg (by rw [h])
    unfold BookmarkActionModel.Update
    simp only [hkey, if_false]
    split_ifs <;> exact ⟨_, _, rfl, by first | exact hsel | rfl⟩

theorem bookmark_apply_keeps_abort (msgs : List Msg) :
    ∀ m : BookmarkActionModel, m.selected = BookmarkAbort →
      Msg.KeyMsg (goString "enter") ∉ msgs →
      ∃ m1, applyMsgs BookmarkActionModel.Update m msgs = some m1 ∧
        m1.selected = BookmarkAbort := by
  induction msgs with
  | nil => intro m h _; exact ⟨m, rfl, h⟩
  | cons k rest ih =>
    intro m h hno
    have hk : k ≠ Msg.KeyMsg (goString "enter") := fun e => hno (by rw [e]; exact List.mem_cons_self _ _)
    obtain ⟨m1, c, hu, h1⟩ := bookmark_update_keeps_abort m k hk h
    obtain ⟨m2, hrun, h2⟩ := ih m1 h1 (fun hmem => hno (List.mem_cons_of_mem _ hmem))
    exact ⟨m2, by simp only [applyMsgs, hu, Option.some_bind]; exact hrun, h2⟩

theorem bookmark_run_keeps_abort (msgs : List Msg) :
    ∀ m : BookmarkActionModel, m.selected = BookmarkAbort →
      Msg.KeyMsg (goString "enter") ∉ msgs →
      ∃ m1, (runProgram BookmarkActionModel.Update m msgs = RunState.running m1 ∨
          runProgram BookmarkActionModel.Update m msgs = RunState.finished m1) ∧
        m1.selected = BookmarkAbort := by
  induction msgs with
  | nil => intro m h _; exact ⟨m, Or.inl rfl, h⟩
  | cons k rest ih =>
    intro m h hno
    have hk : k ≠ Msg.KeyMsg (goString "enter") := fun e => hno (by rw [e]; exact List.mem_cons_self _ _)
    obtain ⟨m1, c, hu, h1⟩ := bookmark_update_keeps_abort m k hk h
    cases c with
    | Quit => exact ⟨m1, Or.inr (by simp only [runProgram, hu]), h1⟩
    | nil =>
      obtain ⟨m2, hrun, h2⟩ := ih m1 h1 (fun hmem => hno (List.mem_cons_of_mem _ hmem))
      refine ⟨m2, ?_, h2⟩
      simp only [runProgram, hu]
      exact hrun

/-- C7: for every sequence of messages without the enter key, applied with
BookmarkActionModel.Update from NewBookmarkActionModel, SelectedAction is Abort
after every event (every prefix, the empty one included, whether or not the quit
key occurs); so a menu loop fed such a sequence never ends with another action,
and RunBookmarkMenu returns Abort whenever it returns. -/
theorem bookmark_menu_default_abort (msgs : List Msg)
    (hno : Msg.KeyMsg (goString "enter") ∉ msgs) :
    (∀ n : Nat, ∃ m, applyMsgs BookmarkActionModel.Update NewBookmarkActionModel (msgs.take n)
        = some m ∧ m.SelectedAction = BookmarkAbort) ∧
    (∃ m, (runProgram BookmarkActionModel.Update NewBookmarkActionModel msgs = RunState.running m ∨
        runProgram BookmarkActionModel.Update NewBookmarkActionModel msgs = RunState.finished m) ∧
      m.SelectedAction = BookmarkAbort) ∧
    (∀ a, RunBookmarkMenu (Terminal.input msgs) = some a → a = BookmarkAbort) := by
  refine ⟨fun n => ?_, bookmark_run_keeps_abort msgs _ rfl hno, ?_⟩
  · exact bookmark_apply_keeps_abort (msgs.take n) _ rfl
      (fun hmem => hno (List.mem_of_mem_take hmem))
  · intro a ha
    obtain ⟨m, hrun, hm⟩ := bookmark_run_keeps_abort msgs NewBookmarkActionModel rfl hno
    unfold RunBookmarkMenu at ha
    rcases hrun with h | h
    · simp [h] at ha
    · simp only [h, Option.some.injEq] at ha
      rw [← ha]
      exact hm

theorem bookmark_menu_default_abort_witness :
    Msg.KeyMsg (goString "enter") ∉
      [Msg.KeyMsg (goString "down"), Msg.other, Msg.KeyMsg (goString "q")] ∧
    ∃ m, applyMsgs BookmarkActionModel.Update NewBookmarkActionModel
        ([Msg.KeyMsg (goString "down"), Msg.other, Msg.KeyMsg (goString "q")].take 3)
        = some m ∧ m.SelectedAction = BookmarkAbort :=
  ⟨by decide,
    (bookmark_menu_default_abort
      [Msg.KeyMsg (goString "down"), Msg.other, Msg.KeyMsg (goString "q")] (by decide)).1 3⟩

theorem bookmark_update_up (m : BookmarkActionModel) :
    m.Update (Msg.KeyMsg (goString "up"))
      = some ({ m with cursor := if m.cursor > 0 then m.cursor - 1 else m.cursor }, Cmd.nil) := by
  unfold BookmarkActionModel.Update
  simp only
  rw [if_neg (by decide)]
  split_ifs <;> rfl

theorem bookmark_update_down (m : BookmarkActionModel) :
    m.Update (Msg.KeyMsg (goString "down"))
      = some ({ m with cursor :=
          if m.cursor < (m.options.length : Int) - 1 then m.cursor + 1 else m.cursor },
          Cmd.nil) := by
  unfold BookmarkActionModel.Update
  simp only
  rw [if_neg (by decide), if_neg (by decide)]
  split_ifs <;> rfl

theorem bookmark_update_enter (m : BookmarkActionModel) :
    m.Update (Msg.KeyMsg (goString "enter"))
      = (goIndex m.options m.cursor).map fun option =>
          ({ m with done := true, selected := option }, Cmd.Quit) := by
  unfold BookmarkActionModel.Update
  simp only
  rw [if_neg (by decide), if_neg (by decide), if_neg (by decide)]
  rfl

theorem runProgram_append {M : Type} (update : M → Msg → Option (M × Cmd)) (xs ys : List Msg) :
    ∀ m m1 : M, runProgram update m xs = RunState.running m1 →
      runProgram update m (xs ++ ys) = runProgram update m1 ys := by
  induction xs with
  | nil => intro m m1 h; simp only [runProgram, RunState.running.injEq] at h; rw [h]; rfl
  | cons x rest ih =>
    intro m m1 h
    simp only [runProgram, List.cons_append] at h ⊢
    cases hu : update m x with
    | none => rw [hu] at h; cases h
    | some r =>
      obtain ⟨m2, c⟩ := r
      cases c with
      | Quit => rw [hu] at h; cases h
      | nil => rw [hu] at h; simp only [] at h ⊢; exact ih m2 m1 h

theorem bookmark_apply_updown (keys : List Msg) :
    ∀ m : BookmarkActionModel, m.options = NewBookmarkActionModel.options →
      0 ≤ m.cursor → m.cursor ≤ 2 → (∀ k ∈ keys, k ∈ upDownKeys) →
      ∃ m1, applyMsgs BookmarkActionModel.Update m keys = some m1 ∧
        runProgram BookmarkActionModel.Update m keys = RunState.running m1 ∧
        m1.options = NewBookmarkActionModel.options ∧ 0 ≤ m1.cursor ∧ m1.cursor ≤ 2 := by
  induction keys with
  | nil => intro m ho h0 h2 _; exact ⟨m, rfl, rfl, ho, h0, h2⟩
  | cons k rest ih =>
    intro m ho h0 h2 hk
    have hlen : (m.options.length : Int) = 3 := by rw [ho]; rfl
    have hmem := hk k (List.mem_cons_self _ _)
    simp only [upDownKeys, List.mem_cons, List.mem_singleton, List.not_mem_nil, or_false] at hmem
    have hrest : ∀ k1 ∈ rest, k1 ∈ upDownKeys := fun k1 h => hk k1 (List.mem_cons_of_mem _ h)
    rcases hmem with rfl | rfl
    · obtain ⟨m2, hrun, hrun2, h⟩ := ih { m with cursor := if m.cursor > 0 then m.cursor - 1 else m.cursor }
        ho (by show 0 ≤ (if m.cursor > 0 then m.cursor - 1 else m.cursor); split <;> omega)
        (by show (if m.cursor > 0 then m.cursor - 1 else m.cursor) ≤ 2; split <;> omega) hrest
      exact ⟨m2, by simp only [applyMsgs, bookmark_update_up, Option.some_bind]; exact hrun,
        by simp only [runProgram, bookmark_update_up]; exact hrun2, h⟩
    · obtain ⟨m2, hrun, hrun2, h⟩ := ih
        { m with cursor :=
            if m.cursor < (m.options.length : Int) - 1 then m.cursor + 1 else m.cursor }
        ho
        (by show 0 ≤ (if m.cursor < (m.options.length : Int) - 1 then m.cursor + 1 else m.cursor)
            split <;> omega)
        (by show (if m.cursor < (m.options.length : Int) - 1 then m.cursor + 1 else m.cursor) ≤ 2
            split <;> omega) hrest
      exact ⟨m2, by simp only [applyMsgs, bookmark_update_down, Option.some_bind]; exact hrun,
        by simp only [runProgram, bookmark_update_down]; exact hrun2, h⟩

/-- C8: after every sequence of up/down keys applied from NewBookmarkActionModel the
cursor is in [0, 2]; there, up leaves the cursor at 0 unchanged and otherwise
lowers it by one, down leaves the cursor at 2 unchanged and otherwise raises it
by one, and enter returns tea.Quit with the menu marked done and SelectedAction
the option at the cursor: Replace at 0, Append at 1, Abort at 2. -/
theorem bookmark_menu_cursor_commit (keys : List Msg) (hkeys : ∀ k ∈ keys, k ∈ upDownKeys) :
    ∃ m, applyMsgs BookmarkActionModel.Update NewBookmarkActionModel keys = some m ∧
      runProgram BookmarkActionModel.Update NewBookmarkActionModel keys = RunState.running m ∧
      0 ≤ m.cursor ∧ m.cursor ≤ 2 ∧
      (∃ m1, m.Update (Msg.KeyMsg (goString "up")) = some (m1, Cmd.nil) ∧
        m1.cursor = if m.cursor = 0 then 0 else m.cursor - 1) ∧
      (∃ m1, m.Update (Msg.KeyMsg (goString "down")) = some (m1, Cmd.nil) ∧
        m1.cursor = if m.cursor = 2 then 2 else m.cursor + 1) ∧
      (∃ m1, m.Update (Msg.KeyMsg (goString "enter")) = some (m1, Cmd.Quit) ∧
        m1.done = true ∧
        m1.SelectedAction =
          (if m.cursor = 0 then BookmarkReplace
           else if m.cursor = 1 then BookmarkAppend else BookmarkAbort) ∧
        RunBookmarkMenu (Terminal.input (keys ++ [Msg.KeyMsg (goString "enter")]))
          = some m1.SelectedAction) := by
  obtain ⟨m, happ, hrun, ho, h0, h2⟩ :=
    bookmark_apply_updown keys NewBookmarkActionModel rfl (by decide) (by decide) hkeys
  have hlen : (m.options.length : Int) = 3 := by rw [ho]; rfl
  refine ⟨m, happ, hrun, h0, h2, ⟨_, bookmark_update_up m, ?_⟩,
    ⟨_, bookmark_update_down m, ?_⟩, ?_⟩
  · show (if m.cursor > 0 then m.cursor - 1 else m.cursor) = _
    split <;> split <;> omega
  · show (if m.cursor < (m.options.length : Int) - 1 then m.cursor + 1 else m.cursor) = _
    split <;> split <;> omega
  · have hc : m.cursor = 0 ∨ m.cursor = 1 ∨ m.cursor = 2 := by omega
    have hidx : goIndex m.options m.cursor
        = some (if m.cursor = 0 then BookmarkReplace
           else if m.cursor = 1 then BookmarkAppend else BookmarkAbort) := by
      rw [ho]
      rcases hc with h | h | h <;> rw [h] <;> rfl
    have henter : m.Update (Msg.KeyMsg (goString "enter"))
        = some ({ m with done := true, selected :=
            (if m.cursor = 0 then BookmarkReplace
             else if m.cursor = 1 then BookmarkAppend else BookmarkAbort) }, Cmd.Quit) := by
      rw [bookmark_update_enter, hidx]
      rfl
    refine ⟨_, henter, rfl, rfl, ?_⟩
    unfold RunBookmarkMenu
    simp only [runProgram_append _ _ _ _ _ hrun, runProgram, henter]

theorem bookmark_menu_cursor_commit_witness :
    (∀ k ∈ demoKeys, k ∈ upDownKeys) ∧
    ∃ m, applyMsgs BookmarkActionModel.Update NewBookmarkActionModel demoKeys = some m ∧
      runProgram BookmarkActionModel.Update NewBookmarkActionModel demoKeys
        = RunState.running m ∧
      0 ≤ m.cursor ∧ m.cursor ≤ 2 ∧
      (∃ m1, m.Update (Msg.KeyMsg (goString "up")) = some (m1, Cmd.nil) ∧
        m1.cursor = if m.cursor = 0 then 0 else m.cursor - 1) ∧
      (∃ m1, m.Update (Msg.KeyMsg (goString "down")) = some (m1, Cmd.nil) ∧
        m1.cursor = if m.cursor = 2 then 2 else m.cursor + 1) ∧
      (∃ m1, m.Update (Msg.KeyMsg (goString "enter")) = some (m1, Cmd.Quit) ∧
        m1.done = true ∧
        m1.SelectedAction =
          (if m.cursor = 0 then BookmarkReplace
           else if m.cursor = 1 then BookmarkAppend else BookmarkAbort) ∧
        RunBookmarkMenu (Terminal.input (demoKeys ++ [Msg.KeyMsg (goString "enter")]))
          = some m1.SelectedAction) :=
  ⟨by decide, bookmark_menu_cursor_commit demoKeys (by decide)⟩

theorem store_list (ds : Int) (w : BookmarkStore) (channelID : GoString) (since : Int) :
    (storeClient ds).ListChannelBookmarksForChannel w channelID since
      = ({ value := w.ofChannel channelID, StatusCode := 200, err := none },
         { w with calls := w.calls ++ [RemoteCall.list channelID since] }) := rfl

theorem store_delete (w : BookmarkStore) (channelID bookmarkID : GoString) :
    (storeClient 200).DeleteChannelBookmark w channelID bookmarkID
      = ({ value := (), StatusCode := 200, err := none },
         { bookmarks := w.bookmarks.filter fun b =>
             ¬ (b.ChannelId = channelID ∧ b.Id = bookmarkID),
           calls := w.calls ++ [RemoteCall.delete channelID bookmarkID] }) := rfl

theorem store_create (ds : Int) (w : BookmarkStore) (bookmark : ChannelBookmark) :
    (storeClient ds).CreateChannelBookmark w bookmark
      = ({ value := (), StatusCode := 201, err := none },
         { bookmarks := w.bookmarks ++ [{ bookmark with Id := newBookmarkId w.calls.length }],
           calls := w.calls ++ [RemoteCall.create bookmark] }) := rfl

theorem store_delete_loop (channelID : GoString) (bs : List ChannelBookmark) :
    ∀ w : BookmarkStore,
      deleteBookmarksLoop (storeClient 200) channelID bs w
        = (none,
            { bookmarks := w.bookmarks.filter fun b =>
                ¬ (b.ChannelId = channelID ∧ b.Id ∈ bs.map ChannelBookmark.Id),
              calls := w.calls ++ bs.map fun b => RemoteCall.delete channelID b.Id }) := by
  induction bs with
  | nil => intro w; simp [deleteBookmarksLoop]
  | cons b rest ih =>
    intro w
    simp only [deleteBookmarksLoop, store_delete, ne_eq, not_true_eq_false, if_false]
    rw [ih]
    simp only [List.filter_filter, List.map_cons, List.append_assoc, List.singleton_append,
      Prod.mk.injEq, BookmarkStore.mk.injEq, and_true, true_and]
    apply List.filter_congr
    intro x _
    by_cases h1 : x.ChannelId = channelID <;> by_cases h2 : x.Id = b.Id <;> simp [h1, h2]

theorem store_create_loop (ds : Int) (channelID : GoString) (bs : List Bookmark) :
    ∀ w : BookmarkStore, ∃ created : List ChannelBookmark,
      createBookmarksLoop (storeClient ds) channelID bs w
        = (none,
            { bookmarks := w.bookmarks ++ created,
              calls := w.calls ++ bs.map fun b => RemoteCall.create (bookmarkPayload channelID b) }) ∧
      created.map (fun b => { b with Id := [] }) = bs.map (bookmarkPayload channelID) := by
  induction bs with
  | nil => intro w; exact ⟨[], by simp [createBookmarksLoop], rfl⟩
  | cons b rest ih =>
    intro w
    obtain ⟨created, hrun, hmap⟩ := ih
      { bookmarks := w.bookmarks ++
          [{ bookmarkPayload channelID b with Id := newBookmarkId w.calls.length }],
        calls := w.calls ++ [RemoteCall.create (bookmarkPayload channelID b)] }
    refine ⟨{ bookmarkPayload channelID b with Id := newBookmarkId w.calls.length } :: created,
      ?_, ?_⟩
    · simp only [createBookmarksLoop, store_create, ne_eq, not_true_eq_false, if_false]
      rw [if_neg (by decide), hrun]
      simp
    · simp only [List.map_cons, hmap]
      rfl

theorem created_facts (channelID : GoString) (created : List ChannelBookmark) :
    ∀ bs : List Bookmark,
      created.map (fun b => { b with Id := [] }) = bs.map (bookmarkPayload channelID) →
      created.map ChannelBookmark.toBookmark = bs ∧ ∀ b ∈ created, b.ChannelId = channelID := by
  induction created with
  | nil =>
    intro bs h
    cases bs with
    | nil => exact ⟨rfl, fun b hb => by cases hb⟩
    | cons _ _ => simp at h
  | cons c rest ih =>
    intro bs h
    cases bs with
    | nil => simp at h
    | cons b bs1 =>
      simp only [List.map_cons, List.cons.injEq] at h
      obtain ⟨hc, hrest⟩ := h
      obtain ⟨h1, h2⟩ := ih bs1 hrest
      have hch : c.ChannelId = channelID := congrArg ChannelBookmark.ChannelId hc
      have hb : c.toBookmark = b := by
        have := congrArg ChannelBookmark.toBookmark hc
        cases b
        exact this
      refine ⟨by simp only [List.map_cons, h1, hb], ?_⟩
      intro x hx
      rcases List.mem_cons.mp hx with rfl | hx
      · exact hch
      · exact h2 x hx

theorem store_hasExisting (w : BookmarkStore) (channelID : GoString)
    (hex : w.ofChannel channelID ≠ []) :
    HasExistingBookmarks (storeClient 200) w channelID
      = ((true, none), { w with calls := w.calls ++ [RemoteCall.list channelID 0] }) := by
  have hlen : (w.ofChannel channelID).length ≠ 0 := by
    intro h; exact hex (List.length_eq_zero.mp h)
  simp only [HasExistingBookmarks, store_list, ne_eq, not_true_eq_false, if_false, hlen]
  rw [if_neg (by decide)]

theorem store_deleteExisting (w : BookmarkStore) (channelID : GoString) :
    DeleteExistingBookmarks (storeClient 200) w channelID
      = (none,
          { bookmarks := w.ofOthers channelID,
            calls := w.calls ++ [RemoteCall.list channelID 0]
              ++ (w.ofChannel channelID).map fun b => RemoteCall.delete channelID b.Id }) := by
  simp only [DeleteExistingBookmarks, store_list, ne_eq, not_true_eq_false, if_false]
  rw [if_neg (by decide), store_delete_loop]
  simp only [Prod.mk.injEq, BookmarkStore.mk.injEq, and_true, true_and]
  unfold BookmarkStore.ofOthers
  apply List.filter_congr
  intro x hx
  by_cases h1 : x.ChannelId = channelID
  · have hmem : x ∈ w.ofChannel channelID := by
      unfold BookmarkStore.ofChannel
      exact List.mem_filter.mpr ⟨hx, by simpa using h1⟩
    have : x.Id ∈ (w.ofChannel channelID).map ChannelBookmark.Id := List.mem_map_of_mem _ hmem
    simp [h1, this]
  · simp [h1]

theorem store_createOrExit (w : BookmarkStore) (channelID : GoString) (config : Config) :
    ∃ created : List ChannelBookmark,
      createOrExit (storeClient 200) w channelID config
        = (Outcome.returned,
            { bookmarks := w.bookmarks ++ created,
              calls := w.calls ++ config.Bookmarks.map fun b =>
                RemoteCall.create (bookmarkPayload channelID b) }) ∧
      created.map (fun b => { b with Id := [] })
        = config.Bookmarks.map (bookmarkPayload channelID) := by
  obtain ⟨created, hrun, hmap⟩ := store_create_loop 200 channelID config.Bookmarks w
  refine ⟨created, ?_, hmap⟩
  simp only [createOrExit, CreateBookmarks, hrun, ne_eq, not_true_eq_false, if_false]

/-- C9: ProcessChannelBookmarks makes no remote call (the remote state is
returned untouched, on any remote) when the config has no bookmarks. Otherwise,
on a server whose calls all succeed and which holds bookmarks for the channel:
when the menu yields Replace, the calls are the two listings, then one deletion
per existing bookmark, then one creation per configured bookmark in config
order, and the channel ends up holding exactly the configured bookmarks; when it
yields Append, the calls are the listing and the creations in config order and
the created bookmarks are added after the unchanged old ones; when it yields
Abort, only the listing was called and the stored bookmarks are unchanged. -/
theorem processChannelBookmarks_trace (w : BookmarkStore) (channelID : GoString)
    (config : Config) (tty : Terminal) :
    (config.Bookmarks = [] →
      ∀ (σ : Type) (mmClient : Client4 σ) (s : σ),
        ProcessChannelBookmarks mmClient s channelID config tty = some (Outcome.returned, s)) ∧
    (config.Bookmarks ≠ [] → w.ofChannel channelID ≠ [] →
      (RunBookmarkMenu tty = some BookmarkReplace →
        ∃ created,
          ProcessChannelBookmarks (storeClient 200) w channelID config tty
            = some (Outcome.returned,
                { bookmarks := w.ofOthers channelID ++ created,
                  calls := w.calls ++ [RemoteCall.list channelID 0, RemoteCall.list channelID 0]
                    ++ (w.ofChannel channelID).map (fun b => RemoteCall.delete channelID b.Id)
                    ++ config.Bookmarks.map
                        (fun b => RemoteCall.create (bookmarkPayload channelID b)) }) ∧
          created.map (fun b => { b with Id := [] })
            = config.Bookmarks.map (bookmarkPayload channelID) ∧
          (BookmarkStore.ofChannel { bookmarks := w.ofOthers channelID ++ created, calls := [] }
              channelID).map ChannelBookmark.toBookmark = config.Bookmarks) ∧
      (RunBookmarkMenu tty = some BookmarkAppend →
        ∃ created,
          ProcessChannelBookmarks (storeClient 200) w channelID config tty
            = some (Outcome.returned,
                { bookmarks := w.bookmarks ++ created,
                  calls := w.calls ++ [RemoteCall.list channelID 0]
                    ++ config.Bookmarks.map
                        (fun b => RemoteCall.create (bookmarkPayload channelID b)) }) ∧
          created.map (fun b => { b with Id := [] })
            = config.Bookmarks.map (bookmarkPayload channelID)) ∧
      (RunBookmarkMenu tty = some BookmarkAbort →
        ProcessChannelBookmarks (storeClient 200) w channelID config tty
          = some (Outcome.returned,
              { bookmarks := w.bookmarks,
                calls := w.calls ++ [RemoteCall.list channelID 0] }))) := by
  constructor
  · intro h σ mmClient s
    simp [ProcessChannelBookmarks, h]
  · intro hcfg hex
    have hlen : config.Bookmarks.length ≠ 0 := fun h => hcfg (List.length_eq_zero.mp h)
    have hA : BookmarkAppend ≠ BookmarkReplace := by decide
    have hB : BookmarkAbort ≠ BookmarkReplace := by decide
    have hC : BookmarkAbort ≠ BookmarkAppend := by decide
    refine ⟨fun hmenu => ?_, fun hmenu => ?_, fun hmenu => ?_⟩
    · obtain ⟨created, hrun, hmap⟩ := store_createOrExit
        { bookmarks := w.ofOthers channelID,
          calls := w.calls ++ [RemoteCall.list channelID 0] ++ [RemoteCall.list channelID 0]
            ++ (w.ofChannel channelID).map fun b => RemoteCall.delete channelID b.Id }
        channelID config
      refine ⟨created, ?_, hmap, ?_⟩
      · simp only [ProcessChannelBookmarks, hlen, if_false, store_hasExisting w channelID hex,
          ne_eq, not_true_eq_false, if_true, hmenu, Option.some_bind]
        have hd := store_deleteExisting
          { w with calls := w.calls ++ [RemoteCall.list channelID 0] } channelID
        simp only [BookmarkStore.ofOthers, BookmarkStore.ofChannel] at hd hrun ⊢
        rw [hd]
        simp only [ne_eq, not_true_eq_false, if_false]
        rw [hrun]
        simp
      · obtain ⟨h1, h2⟩ := created_facts channelID created config.Bookmarks hmap
        have : BookmarkStore.ofChannel
            { bookmarks := w.ofOthers channelID ++ created, calls := [] } channelID = created := by
          simp only [BookmarkStore.ofChannel, BookmarkStore.ofOthers, List.filter_append,
            List.filter_filter]
          have e1 : List.filter (fun a => decide (a.ChannelId = channelID)
              && decide ¬ a.ChannelId = channelID) w.bookmarks = [] := by
            apply List.filter_eq_nil_iff.mpr
            intro a _
            by_cases h : a.ChannelId = channelID <;> simp [h]
          have e2 : List.filter (fun b => decide (b.ChannelId = channelID)) created = created := by
            apply List.filter_eq_self.mpr
            intro a ha
            simpa using h2 a ha
          rw [e1, e2]
          rfl
        rw [this, h1]
    · obtain ⟨created, hrun, hmap⟩ := store_createOrExit
        { w with calls := w.calls ++ [RemoteCall.list channelID 0] } channelID config
      refine ⟨created, ?_, hmap⟩
      simp only [ProcessChannelBookmarks, hlen, if_false, store_hasExisting w channelID hex,
        ne_eq, not_true_eq_false, if_true, hmenu, Option.some_bind, hA]
      rw [hrun]
    · simp only [ProcessChannelBookmarks, hlen, if_false, store_hasExisting w channelID hex,
        ne_eq, not_true_eq_false, if_true, hmenu, Option.some_bind, hB, hC]

theorem processChannelBookmarks_trace_witness :
    demoConfig.Bookmarks ≠ [] ∧ demoStore.ofChannel demoChannel ≠ [] ∧
    RunBookmarkMenu (Terminal.input [Msg.KeyMsg (goString "enter")]) = some BookmarkReplace ∧
    ∃ created,
      ProcessChannelBookmarks (storeClient 200) demoStore demoChannel demoConfig
          (Terminal.input [Msg.KeyMsg (goString "enter")])
        = some (Outcome.returned,
            { bookmarks := demoStore.ofOthers demoChannel ++ created,
              calls := demoStore.calls
                ++ [RemoteCall.list demoChannel 0, RemoteCall.list demoChannel 0]
                ++ (demoStore.ofChannel demoChannel).map
                    (fun b => RemoteCall.delete demoChannel b.Id)
                ++ demoConfig.Bookmarks.map
                    (fun b => RemoteCall.create (bookmarkPayload demoChannel b)) }) ∧
      created.map (fun b => { b with Id := [] })
        = demoConfig.Bookmarks.map (bookmarkPayload demoChannel) ∧
      (BookmarkStore.ofChannel
          { bookmarks := demoStore.ofOthers demoChannel ++ created, calls := [] }
          demoChannel).map ChannelBookmark.toBookmark = demoConfig.Bookmarks :=
  ⟨by decide, by decide, by decide,
    ((processChannelBookmarks_trace demoStore demoChannel demoConfig
      (Terminal.input [Msg.KeyMsg (goString "enter")])).2 (by decide) (by decide)).1 (by decide)⟩

/-- C10: when DeleteChannelBookmark answers with a nil error and a status other
than 200 or 201 (202 or 203 here, statuses the client library passes on without
an error), DeleteExistingBookmarks still returns a nil error, and the Replace
branch of ProcessChannelBookmarks goes on to create the configured bookmarks and
returns instead of ending with exit code 45. With a deletion that comes with an
error (status 500) the same run ends with exit code 45 and creates nothing. -/
theorem deleteExistingBookmarks_ignores_bad_status :
    ((storeClient 202).DeleteChannelBookmark demoStore demoChannel (goString "b1")).1
      = { value := (), StatusCode := 202, err := none } ∧
    (DeleteExistingBookmarks (storeClient 202) demoStore demoChannel).1 = none ∧
    (DeleteExistingBookmarks (storeClient 203) demoStore demoChannel).1 = none ∧
    (DeleteExistingBookmarks (storeClient 202) demoStore demoChannel).2.calls
      = [RemoteCall.list demoChannel 0, RemoteCall.delete demoChannel (goString "b1"),
         RemoteCall.delete demoChannel (goString "b3")] ∧
    (ProcessChannelBookmarks (storeClient 202) demoStore demoChannel demoConfig
        (Terminal.input [Msg.KeyMsg (goString "enter")])).map
        (fun r => (r.1, r.2.calls))
      = some (Outcome.returned,
          [RemoteCall.list demoChannel 0, RemoteCall.list demoChannel 0,
           RemoteCall.delete demoChannel (goString "b1"),
           RemoteCall.delete demoChannel (goString "b3"),
           RemoteCall.create (bookmarkPayload demoChannel
             { DisplayName := goString "Wiki", LinkURL := goString "https://w",
               Emoji := goString ":w:" }),
           RemoteCall.create (bookmarkPayload demoChannel
             { DisplayName := goString "Chat", LinkURL := goString "https://c",
               Emoji := goString ":c:" })]) ∧
    (ProcessChannelBookmarks (storeClient 500) demoStore demoChannel demoConfig
        (Terminal.input [Msg.KeyMsg (goString "enter")])).map
        (fun r => (r.1, r.2.calls))
      = some (Outcome.exit 45,
          [RemoteCall.list demoChannel 0, RemoteCall.list demoChannel 0,
           RemoteCall.delete demoChannel (goString "b1")]) := by
  refine ⟨by decide, by decide, by decide, by decide, by decide, by decide⟩

theorem pageOk_bounds (m : PaginationModel) (hp : m.PageOk) :
    0 ≤ m.currentPage ∧ m.currentPage * m.perPage ≤ (m.posts.length : Int) ∧
    (m.currentPage > 0 → m.currentPage * m.perPage < (m.posts.length : Int)) ∧
    ∃ page opts,
      goSlice m.posts (m.currentPage * m.perPage)
        (min ((m.currentPage + 1) * m.perPage) (m.posts.length : Int)) = some page ∧
      m.visibleOptions = some opts := by
  obtain ⟨page, hpage, -, hopts⟩ := visibleOptions_page m hp.2.1 hp.1 (pageOk_le m hp)
  refine ⟨hp.2.1, pageOk_le m hp, ?_, page, _, hpage, hopts⟩
  intro hpos
  rcases hp.2.2 with h | h
  · omega
  · exact h

/-- C15: for every list of post summaries, every positive page size and every
sequence of messages (any keys, any other message), the state after every prefix
of the run from NewPaginationModel, the run ending with the first event that
returns tea.Quit, satisfies currentPage ≥ 0 and currentPage*perPage ≤ len(posts),
strictly when currentPage > 0; the slice posts[start:end] of visibleOptions is
within bounds; while the menu runs the index visibleOptions()[selection] is
within bounds and Update fails on no message; the run never panics. -/
theorem pagination_never_out_of_range (posts : List PostSummary) (perPage : Int)
    (hk : 0 < perPage) (msgs : List Msg) (n : Nat) :
    ∃ m, m.posts = posts ∧ m.perPage = perPage ∧
      0 ≤ m.currentPage ∧ m.currentPage * perPage ≤ (posts.length : Int) ∧
      (m.currentPage > 0 → m.currentPage * perPage < (posts.length : Int)) ∧
      (∃ page opts,
        goSlice posts (m.currentPage * perPage)
          (min ((m.currentPage + 1) * perPage) (posts.length : Int)) = some page ∧
        m.visibleOptions = some opts ∧
        ((runProgram PaginationModel.Update (NewPaginationModel posts perPage) (msgs.take n)
            = RunState.running m ∧
          (∃ selected, goIndex opts m.selection = some selected) ∧
          ∀ msg, ∃ r, m.Update msg = some r) ∨
         (runProgram PaginationModel.Update (NewPaginationModel posts perPage) (msgs.take n)
            = RunState.finished m ∧
          ∃ selected, m.SelectedOption = some selected))) := by
  obtain ⟨hp0, hc0⟩ := newPaginationModel_ok posts perPage hk
  rcases run_ok (msgs.take n) _ hp0 hc0 with
    ⟨m, hrun, hposts, hper, hp, hc⟩ | ⟨m, hrun, hposts, hper, hp⟩
  · obtain ⟨h0, hle, hlt, page, opts, hpage, hopts⟩ := pageOk_bounds m hp
    have hposts1 : m.posts = posts := hposts
    have hper1 : m.perPage = perPage := hper
    rw [hposts1, hper1] at hle hlt hpage
    refine ⟨m, hposts, hper, h0, hle, hlt, page, opts, hpage, hopts, Or.inl ⟨hrun, ?_, ?_⟩⟩
    · obtain ⟨opts1, hopts1, hs0, hs1⟩ := hc
      rw [hopts] at hopts1
      cases hopts1
      unfold goIndex
      rw [if_pos ⟨hs0, hs1⟩]
      have : m.selection.toNat < opts.length := by omega
      exact ⟨opts[m.selection.toNat], List.getElem?_eq_getElem this⟩
    · intro msg
      obtain ⟨m1, c, hu, -⟩ := update_preserves m hp hc msg
      exact ⟨(m1, c), hu⟩
  · obtain ⟨h0, hle, hlt, page, opts, hpage, hopts⟩ := pageOk_bounds m hp
    have hposts1 : m.posts = posts := hposts
    have hper1 : m.perPage = perPage := hper
    rw [hposts1, hper1] at hle hlt hpage
    refine ⟨m, hposts, hper, h0, hle, hlt, page, opts, hpage, hopts, Or.inr ⟨hrun, ?_⟩⟩
    unfold PaginationModel.SelectedOption
    rw [hopts]
    simp only [Option.some_bind]
    split
    · rename_i hsel
      unfold goIndex
      rw [if_pos hsel]
      have : m.selection.toNat < opts.length := by omega
      exact ⟨opts[m.selection.toNat], List.getElem?_eq_getElem this⟩
    · exact ⟨_, rfl⟩

theorem pagination_never_out_of_range_witness :
    (0 : Int) < 2 ∧
    ∃ m, m.posts = demoModel.posts ∧ m.perPage = 2 ∧
      0 ≤ m.currentPage ∧ m.currentPage * 2 ≤ (demoModel.posts.length : Int) ∧
      (m.currentPage > 0 → m.currentPage * 2 < (demoModel.posts.length : Int)) ∧
      (∃ page opts,
        goSlice demoModel.posts (m.currentPage * 2)
          (min ((m.currentPage + 1) * 2) (demoModel.posts.length : Int)) = some page ∧
        m.visibleOptions = some opts ∧
        ((runProgram PaginationModel.Update (NewPaginationModel demoModel.posts 2)
            (demoMenuKeys.take 4) = RunState.running m ∧
          (∃ selected, goIndex opts m.selection = some selected) ∧
          ∀ msg, ∃ r, m.Update msg = some r) ∨
         (runProgram PaginationModel.Update (NewPaginationModel demoModel.posts 2)
            (demoMenuKeys.take 4) = RunState.finished m ∧
          ∃ selected, m.SelectedOption = some selected))) :=
  ⟨by decide, pagination_never_out_of_range demoModel.posts 2 (by decide) demoMenuKeys 4⟩

/-- C12: when GetPinnedPost yields SelectionType "Skip" (with a nil error),
ProcessPinnedPosts returns the empty string and the remote state is the one left
by the GetPinnedPosts call alone, on every remote (no post is created, no link
is built); main then passes the configuration unchanged to the header and
bookmark flows. -/
theorem skip_outcome {σ : Type} (mmClient : ChannelClient σ) (bookmarkClient : Client4 σ)
    (u : UnicodeStrings) (w : σ) (channelID : GoString) (NoHeaderFlag : Bool) (config : Config)
    (ttyPosts : Terminal) (stdin : ReadResult) (ttyBookmarks : Terminal) (r : SelectionResult)
    (hsel : GetPinnedPost (mmClient.GetPinnedPosts w channelID []).1 ttyPosts = some (r, none))
    (hskip : r.SelectionType = goString "Skip") :
    ProcessPinnedPosts mmClient w channelID config ttyPosts
      = some (LinkOutcome.returned [], (mmClient.GetPinnedPosts w channelID []).2) ∧
    appendPinnedLink config [] = config ∧
    (appendPinnedLink config []).Bookmarks = config.Bookmarks ∧
    mainFlows mmClient bookmarkClient u w channelID NoHeaderFlag config ttyPosts stdin
        ttyBookmarks
      = headerAndBookmarkFlows mmClient bookmarkClient u
          (mmClient.GetPinnedPosts w channelID []).2 channelID NoHeaderFlag config stdin
          ttyBookmarks := by
  have h1 : goString "Skip" ≠ goString "PinnedPost" := by decide
  have h2 : goString "Skip" ≠ goString "AddNew" := by decide
  have hp : ProcessPinnedPosts mmClient w channelID config ttyPosts
      = some (LinkOutcome.returned [], (mmClient.GetPinnedPosts w channelID []).2) := by
    simp only [ProcessPinnedPosts, hsel, Option.some_bind, ne_eq, not_true_eq_false, if_false,
      hskip, h1, h2, if_true]
  refine ⟨hp, rfl, rfl, ?_⟩
  simp only [mainFlows, hp, Option.some_bind]
  rfl

theorem skip_outcome_witness :
    GetPinnedPost
        ((serverClient (goString "https://mm")).onFst.GetPinnedPosts (demoServer, demoStore)
          demoChannel []).1 (Terminal.input skipKeys)
      = some ({ SelectionType := goString "Skip", PostID := [], Message := [] }, none) ∧
    ProcessPinnedPosts (serverClient (goString "https://mm")).onFst (demoServer, demoStore)
        demoChannel demoConfig (Terminal.input skipKeys)
      = some (LinkOutcome.returned [],
          ((serverClient (goString "https://mm")).onFst.GetPinnedPosts (demoServer, demoStore)
            demoChannel []).2) ∧
    (((serverClient (goString "https://mm")).onFst.GetPinnedPosts (demoServer, demoStore)
        demoChannel []).2).1.calls = [ChannelCall.getPinnedPosts demoChannel []] :=
  ⟨by decide,
    (skip_outcome (serverClient (goString "https://mm")).onFst (storeClient 200).onSnd asciiOnly
      (demoServer, demoStore) demoChannel false demoConfig (Terminal.input skipKeys)
      { line := goString "n\n", err := none } (Terminal.input [Msg.KeyMsg (goString "q")])
      { SelectionType := goString "Skip", PostID := [], Message := [] }
      (by decide) rfl).1,
    by decide⟩

theorem buildLink_nonempty {σ : Type} (mmClient : ChannelClient σ) (w : σ)
    (channelID postID : GoString)
    (h : (BuildLinkToPinnedPost mmClient w channelID postID).1.2 = none) :
    (BuildLinkToPinnedPost mmClient w channelID postID).1.1 ≠ [] := by
  have hbad : (some (goString "bad HTTP response") : GoError) ≠ none := by simp
  unfold BuildLinkToPinnedPost at h ⊢
  simp only at h ⊢
  split_ifs at h ⊢
  all_goals first
    | exact absurd h (by assumption)
    | exact absurd h hbad
    | (intro hnil
       have hlen := congrArg List.length hnil
       simp only [List.length_append, List.length_nil] at hlen
       have : (goString "/").length = 1 := by decide
       omega)

theorem buildLinkOrExit_link {σ : Type} (mmClient : ChannelClient σ) (w w1 : σ)
    (channelID postID link : GoString)
    (h : buildLinkOrExit mmClient w channelID postID = (LinkOutcome.returned link, w1)) :
    link ≠ [] := by
  unfold buildLinkOrExit at h
  simp only at h
  split_ifs at h with herr
  · simp at h
  · simp only [Prod.mk.injEq, LinkOutcome.returned.injEq] at h
    rw [← h.1]
    exact buildLink_nonempty mmClient w channelID postID (by simpa using herr)

/-- The links returned by ProcessPinnedPosts: empty only on Skip. -/
theorem processPinnedPosts_link {σ : Type} (mmClient : ChannelClient σ) (w w1 : σ)
    (channelID : GoString) (config : Config) (tty : Terminal) (link : GoString)
    (h : ProcessPinnedPosts mmClient w channelID config tty
      = some (LinkOutcome.returned link, w1)) :
    link ≠ [] ∨
    ∃ r, GetPinnedPost (mmClient.GetPinnedPosts w channelID []).1 tty = some (r, none) ∧
      r.SelectionType = goString "Skip" := by
  unfold ProcessPinnedPosts at h
  simp only at h
  cases hg : GetPinnedPost (mmClient.GetPinnedPosts w channelID []).1 tty with
  | none => rw [hg] at h; simp at h
  | some r =>
    obtain ⟨sel, err⟩ := r
    rw [hg] at h
    simp only [Option.some_bind] at h
    split_ifs at h with herr h1 h2 h3 h4 h5
    · simp at h
    · exact Or.inl (buildLinkOrExit_link _ _ _ _ _ _ (Option.some.inj h))
    · simp at h
    · exact Or.inl (buildLinkOrExit_link _ _ _ _ _ _ (Option.some.inj h))
    · right
      have herr1 : err = none := by simpa using herr
      subst herr1
      exact ⟨sel, rfl, h4⟩
    · simp at h
    · simp at h

/-- C11 (as stated): with a configuration without bookmarks a non-empty link is
not appended. -/
theorem appended_bookmark_counterexample :
    ¬ (∀ (config : Config) (link : GoString), link ≠ [] →
        (appendPinnedLink config link).Bookmarks
          = config.Bookmarks ++ [additionalResources link]) := by
  intro h
  have h1 := h { Team := [], Bookmarks := [], Resources := [] } (goString "https://mm/team/pl/p1")
    (by decide)
  exact absurd h1 (by decide)

/-- C11 (amended): for every configuration with at least one bookmark and every
outcome of the pinned-post flow that yields a non-empty link, the configuration
passed to the header and bookmark flows is the loaded one with exactly one entry
appended at the end of its bookmarks, with display name "Additional Resources",
that link as URL and emoji ":bulb:", team and resources unchanged; with no
bookmark configured the configuration is passed unchanged. A link returned by
the pinned-post flow is empty only on Skip. -/
theorem appended_bookmark {σ : Type} (mmClient : ChannelClient σ) (bookmarkClient : Client4 σ)
    (u : UnicodeStrings) (w w1 : σ) (channelID : GoString) (NoHeaderFlag : Bool)
    (config : Config) (ttyPosts : Terminal) (stdin : ReadResult) (ttyBookmarks : Terminal)
    (link : GoString)
    (hflow : ProcessPinnedPosts mmClient w channelID config ttyPosts
      = some (LinkOutcome.returned link, w1))
    (hlink : link ≠ []) :
    mainFlows mmClient bookmarkClient u w channelID NoHeaderFlag config ttyPosts stdin
        ttyBookmarks
      = headerAndBookmarkFlows mmClient bookmarkClient u w1 channelID NoHeaderFlag
          (appendPinnedLink config link) stdin ttyBookmarks ∧
    (config.Bookmarks ≠ [] →
      appendPinnedLink config link
        = { Team := config.Team,
            Bookmarks := config.Bookmarks ++
              [{ DisplayName := goString "Additional Resources", LinkURL := link,
                 Emoji := goString ":bulb:" }],
            Resources := config.Resources }) ∧
    (config.Bookmarks = [] → appendPinnedLink config link = config) ∧
    (∀ (link1 : GoString) (w2 : σ),
      ProcessPinnedPosts mmClient w channelID config ttyPosts
        = some (LinkOutcome.returned link1, w2) →
      link1 ≠ [] ∨
      ∃ r, GetPinnedPost (mmClient.GetPinnedPosts w channelID []).1 ttyPosts = some (r, none) ∧
        r.SelectionType = goString "Skip") := by
  have hlen : link.length > 0 := List.length_pos.mpr hlink
  refine ⟨?_, ?_, ?_, fun link1 w2 h => processPinnedPosts_link _ _ _ _ _ _ _ h⟩
  · simp only [mainFlows, hflow, Option.some_bind]
  · intro hb
    have hblen : config.Bookmarks.length > 0 := List.length_pos.mpr hb
    simp only [appendPinnedLink, hlen, hblen, if_true]
  · intro hb
    simp [appendPinnedLink, hb]

theorem appended_bookmark_witness :
    ProcessPinnedPosts (serverClient (goString "https://mm")).onFst (demoServer, demoStore)
        demoChannel demoConfig (Terminal.input [Msg.KeyMsg (goString "enter")])
      = some (LinkOutcome.returned (goString "https://mm/team/pl/p1"),
          ({ demoServer with calls :=
              [ChannelCall.getPinnedPosts demoChannel [], ChannelCall.getChannel demoChannel [],
               ChannelCall.getTeam (goString "t1") []] }, demoStore)) ∧
    goString "https://mm/team/pl/p1" ≠ [] ∧
    demoConfig.Bookmarks ≠ [] ∧
    appendPinnedLink demoConfig (goString "https://mm/team/pl/p1")
      = { Team := demoConfig.Team,
          Bookmarks := demoConfig.Bookmarks ++
            [{ DisplayName := goString "Additional Resources",
               LinkURL := goString "https://mm/team/pl/p1", Emoji := goString ":bulb:" }],
          Resources := demoConfig.Resources } :=
  ⟨by decide, by decide, by decide,
    (appended_bookmark (serverClient (goString "https://mm")).onFst (storeClient 200).onSnd
      asciiOnly (demoServer, demoStore)
      ({ demoServer with calls :=
          [ChannelCall.getPinnedPosts demoChannel [], ChannelCall.getChannel demoChannel [],
           ChannelCall.getTeam (goString "t1") []] }, demoStore)
      demoChannel false demoConfig (Terminal.input [Msg.KeyMsg (goString "enter")])
      { line := goString "n\n", err := none } (Terminal.input [Msg.KeyMsg (goString "q")])
      (goString "https://mm/team/pl/p1") (by decide) (by decide)).2.1 (by decide)⟩

theorem asciiLower_eq_y (b : UInt8) : asciiLower b = 121 ↔ b = 121 ∨ b = 89 := by
  constructor
  · intro h
    unfold asciiLower at h
    split at h
    · right
      have h1 := congrArg UInt8.toNat h
      rw [UInt8.toNat_ofNat_of_lt (by simp only [UInt8.size]; omega)] at h1
      have h2 : (121 : UInt8).toNat = 121 := rfl
      apply UInt8.ext
      have h3 : (89 : UInt8).toNat = 89 := rfl
      omega
    · left; exact h
  · rintro (rfl | rfl) <;> decide

theorem stringsToLower_eq_y (u : UnicodeStrings)
    (hu : ∀ s, isASCII s = false → u.ToLower s ≠ goString "y") (t : GoString) :
    stringsToLower u t = goString "y" ↔ (t = goString "y" ∨ t = goString "Y") := by
  have hy : goString "y" = [121] := by decide
  have hY : goString "Y" = [89] := by decide
  rw [hy, hY]
  unfold stringsToLower
  cases hascii : isASCII t with
  | false =>
    simp only [Bool.false_eq_true, if_false]
    constructor
    · intro h
      exact absurd (by rw [hy]; exact h) (hu t hascii)
    · rintro (rfl | rfl) <;> exact absurd hascii (by decide)
  | true =>
    simp only [if_true]
    cases t with
    | nil => simp
    | cons b rest =>
      cases rest with
      | nil =>
        simp only [List.map_cons, List.map_nil, List.cons.injEq, and_true]
        exact asciiLower_eq_y b
      | cons c rest1 => simp

theorem stringsTrimSpace_y (u : UnicodeStrings) :
    stringsTrimSpace u (goString "y") = goString "y" := by
  rfl

theorem confirmAndPatch_eq {σ : Type} (mmClient : ChannelClient σ) (u : UnicodeStrings)
    (hu : ∀ s, isASCII s = false → u.ToLower s ≠ goString "y") (w : σ) (channelID : GoString)
    (config : Config) (input : GoString) :
    confirmAndPatch mmClient u w channelID config input
      = if stringsTrimSpace u input = goString "y" ∨ stringsTrimSpace u input = goString "Y" then
          (if (CreateChannelHeader mmClient w channelID config).1 ≠ none
            then (Outcome.exit 31, (CreateChannelHeader mmClient w channelID config).2)
            else (Outcome.returned, (CreateChannelHeader mmClient w channelID config).2))
        else (Outcome.returned, w) := by
  unfold confirmAndPatch
  simp only [stringsToLower_eq_y u hu]

theorem server_headerExists (url : GoString) (w : ChannelServer) (channelID : GoString) :
    ChannelHeaderExists (serverClient url) w channelID
      = ((decide (w.channel.Header ≠ []), none),
         { w with calls := w.calls ++ [ChannelCall.getChannel channelID []] }) := by
  unfold ChannelHeaderExists
  cases hh : w.channel.Header with
  | nil => simp [serverClient, hh]
  | cons b rest => simp [serverClient, hh]

theorem server_createHeader (url : GoString) (w : ChannelServer) (channelID : GoString)
    (config : Config) :
    CreateChannelHeader (serverClient url) w channelID config
      = (none,
         { w with channel := { w.channel with Header := channelHeader config },
                  calls := w.calls ++ [ChannelCall.patchChannel channelID (channelHeader config)] }) := by
  unfold CreateChannelHeader
  simp [serverClient]

/-- C13 (as stated): a header exists, the configuration has bookmarks and the
user types a blank and y, a line other than "y" and "Y": the header is patched. -/
theorem header_confirmation_counterexample :
    ¬ (∀ content : GoString,
        (ProcessChannelHeader (serverClient (goString "https://mm")) asciiOnly demoServer
            demoChannel demoConfig
            { line := content ++ goString "\n", err := none }).2.calls.any ChannelCall.isPatch
          = true ↔ (content = goString "y" ∨ content = goString "Y")) := by
  intro h
  have h1 := (h (goString " y")).mp (by decide)
  exact absurd h1 (by decide)

/-- C13 (amended): when the configuration has bookmarks and the channel already
has a header, ProcessChannelHeader patches the header if and only if the line
read from the user, with leading and trailing white space removed
(strings.TrimSpace, which also drops the line terminator), is "y" or "Y"; for
every other line no patch call is made and the header is preserved. When no
header exists the header is created without reading the line. Stated on every
remote (a failed patch ends with exit code 31) and on the recording server. -/
theorem header_confirmation (u : UnicodeStrings)
    (hu : ∀ s, isASCII s = false → u.ToLower s ≠ goString "y")
    (config : Config) (hcfg : config.Bookmarks ≠ []) :
    (∀ (σ : Type) (mmClient : ChannelClient σ) (w : σ) (channelID : GoString)
        (stdin : ReadResult),
      (ChannelHeaderExists mmClient w channelID).1 = (true, none) → stdin.err = none →
      ProcessChannelHeader mmClient u w channelID config stdin
        = if stringsTrimSpace u stdin.line = goString "y"
              ∨ stringsTrimSpace u stdin.line = goString "Y" then
            (if (CreateChannelHeader mmClient (ChannelHeaderExists mmClient w channelID).2
                  channelID config).1 ≠ none
              then (Outcome.exit 31,
                (CreateChannelHeader mmClient (ChannelHeaderExists mmClient w channelID).2
                  channelID config).2)
              else (Outcome.returned,
                (CreateChannelHeader mmClient (ChannelHeaderExists mmClient w channelID).2
                  channelID config).2))
          else (Outcome.returned, (ChannelHeaderExists mmClient w channelID).2)) ∧
    (∀ (url : GoString) (w : ChannelServer) (channelID : GoString) (stdin : ReadResult),
      w.channel.Header ≠ [] → stdin.err = none →
      ((stringsTrimSpace u stdin.line = goString "y"
          ∨ stringsTrimSpace u stdin.line = goString "Y") →
        ProcessChannelHeader (serverClient url) u w channelID config stdin
          = (Outcome.returned,
              { w with channel := { w.channel with Header := channelHeader config },
                       calls := w.calls ++ [ChannelCall.getChannel channelID [],
                         ChannelCall.patchChannel channelID (channelHeader config)] })) ∧
      (¬ (stringsTrimSpace u stdin.line = goString "y"
          ∨ stringsTrimSpace u stdin.line = goString "Y") →
        ProcessChannelHeader (serverClient url) u w channelID config stdin
          = (Outcome.returned,
              { w with calls := w.calls ++ [ChannelCall.getChannel channelID []] }))) ∧
    (∀ (url : GoString) (w : ChannelServer) (channelID : GoString) (stdin : ReadResult),
      w.channel.Header = [] →
      ProcessChannelHeader (serverClient url) u w channelID config stdin
        = (Outcome.returned,
            { w with channel := { w.channel with Header := channelHeader config },
                     calls := w.calls ++ [ChannelCall.getChannel channelID [],
                       ChannelCall.patchChannel channelID (channelHeader config)] })) := by
  have hlen : config.Bookmarks.length ≠ 0 := fun h => hcfg (List.length_eq_zero.mp h)
  refine ⟨?_, ?_, ?_⟩
  · intro σ mmClient w channelID stdin hex herr
    have h1 : (ChannelHeaderExists mmClient w channelID).1.2 = none := by rw [hex]
    have h2 : (ChannelHeaderExists mmClient w channelID).1.1 = true := by rw [hex]
    simp only [ProcessChannelHeader, hlen, if_false, h1, h2, herr, ne_eq, not_true_eq_false,
      if_true, confirmAndPatch_eq mmClient u hu]
  · intro url w channelID stdin hh herr
    have hdec : decide (w.channel.Header ≠ []) = true := by simpa using hh
    constructor
    · intro hy
      simp only [ProcessChannelHeader, hlen, if_false, server_headerExists, hdec, herr, ne_eq,
        not_true_eq_false, if_true, confirmAndPatch_eq _ u hu, hy, server_createHeader]
      simp
    · intro hn
      simp only [ProcessChannelHeader, hlen, if_false, server_headerExists, hdec, herr, ne_eq,
        not_true_eq_false, if_true, confirmAndPatch_eq _ u hu, hn]
  · intro url w channelID stdin hh
    have hdec : decide (w.channel.Header ≠ []) = false := by simpa using hh
    simp only [ProcessChannelHeader, hlen, if_false, server_headerExists, hdec, ne_eq,
      not_true_eq_false, Bool.false_eq_true, confirmAndPatch_eq _ u hu, stringsTrimSpace_y,
      true_or, if_true, server_createHeader]
    simp

theorem header_confirmation_witness :
    (∀ s, isASCII s = false → asciiOnly.ToLower s ≠ goString "y") ∧
    demoConfig.Bookmarks ≠ [] ∧ demoServer.channel.Header ≠ [] ∧
    (stringsTrimSpace asciiOnly (goString " Y \r\n") = goString "y"
      ∨ stringsTrimSpace asciiOnly (goString " Y \r\n") = goString "Y") ∧
    ProcessChannelHeader (serverClient (goString "https://mm")) asciiOnly demoServer demoChannel
        demoConfig { line := goString " Y \r\n", err := none }
      = (Outcome.returned,
          { demoServer with
              channel := { demoServer.channel with Header := channelHeader demoConfig },
              calls := demoServer.calls ++ [ChannelCall.getChannel demoChannel [],
                ChannelCall.patchChannel demoChannel (channelHeader demoConfig)] }) :=
  ⟨fun s h e => by rw [show asciiOnly.ToLower s = s from rfl] at e; rw [e] at h; exact absurd h (by decide),
    by decide, by decide, by decide,
    ((header_confirmation asciiOnly
        (fun s h e => by
          rw [show asciiOnly.ToLower s = s from rfl] at e; rw [e] at h; exact absurd h (by decide))
        demoConfig (by decide)).2.1
      (goString "https://mm") demoServer demoChannel
      { line := goString " Y \r\n", err := none } (by decide) rfl).1 (by decide)⟩

theorem processChannelBookmarks_exit {σ : Type} (mmClient : Client4 σ) (w s : σ)
    (channelID : GoString) (config : Config) (tty : Terminal) (code : Int)
    (h : ProcessChannelBookmarks mmClient w channelID config tty = some (Outcome.exit code, s)) :
    code = ExitSite.bookmarkLookup.code ∨ code = ExitSite.bookmarkDeletion.code
      ∨ code = ExitSite.bookmarkCreation.code := by
  have hc : ∀ (w1 s1 : σ), createOrExit mmClient w1 channelID config = (Outcome.exit code, s1) →
      code = 42 := by
    intro w1 s1 h1
    unfold createOrExit at h1
    simp only at h1
    split_ifs at h1
    · simp only [Prod.mk.injEq, Outcome.exit.injEq] at h1; exact h1.1.symm
    · simp at h1
  show code = 41 ∨ code = 45 ∨ code = 42
  unfold ProcessChannelBookmarks at h
  simp only at h
  cases hm : RunBookmarkMenu tty <;>
    simp only [hm, Option.some_bind, Option.none_bind] at h <;>
    split_ifs at h
  all_goals first
    | (simp at h; done)
    | (have h1 := hc _ _ (Option.some.inj h); omega)
    | (simp only [Option.some.injEq, Prod.mk.injEq, Outcome.exit.injEq] at h; omega)

theorem processChannelHeader_exit {σ : Type} (mmClient : ChannelClient σ) (u : UnicodeStrings)
    (w s : σ) (channelID : GoString) (config : Config) (stdin : ReadResult) (code : Int)
    (h : ProcessChannelHeader mmClient u w channelID config stdin = (Outcome.exit code, s)) :
    code = ExitSite.headerLookup.code ∨ code = ExitSite.confirmationRead.code
      ∨ code = ExitSite.headerCreation.code := by
  have hc : ∀ (w1 s1 : σ) (input : GoString),
      confirmAndPatch mmClient u w1 channelID config input = (Outcome.exit code, s1) →
      code = 31 := by
    intro w1 s1 input h1
    unfold confirmAndPatch at h1
    simp only at h1
    split_ifs at h1
    · simp only [Prod.mk.injEq, Outcome.exit.injEq] at h1; exact h1.1.symm
    · simp at h1
    · simp at h1
  show code = 8 ∨ code = 9 ∨ code = 31
  unfold ProcessChannelHeader at h
  simp only at h
  split_ifs at h
  all_goals first
    | (simp at h; done)
    | (have h1 := hc _ _ _ h; omega)
    | (simp only [Prod.mk.injEq, Outcome.exit.injEq] at h; omega)

theorem processPinnedPosts_exit {σ : Type} (mmClient : ChannelClient σ) (w s : σ)
    (channelID : GoString) (config : Config) (tty : Terminal) (code : Int)
    (h : ProcessPinnedPosts mmClient w channelID config tty = some (LinkOutcome.exit code, s)) :
    code = ExitSite.menuFailed.code ∨ code = ExitSite.postCreation.code
      ∨ code = ExitSite.userAbort.code ∨ code = ExitSite.unexpectedSelection.code
      ∨ code = ExitSite.linkBuilding.code := by
  have hb : ∀ (w1 s1 : σ) (postID : GoString),
      buildLinkOrExit mmClient w1 channelID postID = (LinkOutcome.exit code, s1) → code = 7 := by
    intro w1 s1 postID h1
    unfold buildLinkOrExit at h1
    simp only at h1
    split_ifs at h1
    · simp only [Prod.mk.injEq, LinkOutcome.exit.injEq] at h1; exact h1.1.symm
    · simp at h1
  show code = 4 ∨ code = 6 ∨ code = 0 ∨ code = 3 ∨ code = 7
  unfold ProcessPinnedPosts at h
  simp only at h
  cases hg : GetPinnedPost (mmClient.GetPinnedPosts w channelID []).1 tty <;>
    simp only [hg, Option.some_bind, Option.none_bind] at h
  · simp at h
  · split_ifs at h
    all_goals first
      | (simp at h; done)
      | (have h1 := hb _ _ _ (Option.some.inj h); omega)
      | (simp only [Option.some.injEq, Prod.mk.injEq, LinkOutcome.exit.injEq] at h; omega)

theorem mainProgram_version {σ : Type} (flags : Flags) (LookupEnv : GoString → Option GoString)
    (fs : FileSystem) (NewAPIv4Client : GoString → GoString → ChannelClient σ × Client4 σ)
    (u : UnicodeStrings) (w : σ) (ttyPosts : Terminal) (stdin : ReadResult)
    (ttyBookmarks : Terminal) (hv : flags.VersionFlag = true) :
    mainProgram flags LookupEnv fs NewAPIv4Client u w ttyPosts stdin ttyBookmarks
      = some (Outcome.exit 0, w) := by
  simp only [mainProgram, hv, if_true]

theorem mainProgram_missing {σ : Type} (flags : Flags) (LookupEnv : GoString → Option GoString)
    (fs : FileSystem) (NewAPIv4Client : GoString → GoString → ChannelClient σ × Client4 σ)
    (u : UnicodeStrings) (w : σ) (ttyPosts : Terminal) (stdin : ReadResult)
    (ttyBookmarks : Terminal) (hv : flags.VersionFlag = false)
    (hd : flags.DebugFlag = true ∨ LookupEnv (goString "MM_DEBUG") = none)
    (hm : flags.MattermostChannel = []
      ∨ (flags.MattermostURL = [] ∧ LookupEnv (goString "MM_URL") = none)
      ∨ (flags.MattermostToken = [] ∧ LookupEnv (goString "MM_TOKEN") = none)) :
    mainProgram flags LookupEnv fs NewAPIv4Client u w ttyPosts stdin ttyBookmarks
      = some (Outcome.exit 1, w) := by
  have hnp : ¬ (flags.DebugFlag = false ∧ (LookupEnv (goString "MM_DEBUG")).isSome = true) := by
    rintro ⟨h1, h2⟩
    rcases hd with h | h
    · rw [h] at h1; cases h1
    · rw [h] at h2; cases h2
  simp only [mainProgram, hv, Bool.false_eq_true, if_false, hnp]
  rw [if_pos]
  rcases hm with h | ⟨h1, h2⟩ | ⟨h1, h2⟩
  · exact Or.inr (Or.inr (Or.inr h))
  · left
    simp only [h1, if_true, getEnvWithDefault, h2]
  · right; right; left
    simp only [h1, if_true, getEnvWithDefault, h2]

theorem mainProgram_config {σ : Type} (flags : Flags) (LookupEnv : GoString → Option GoString)
    (fs : FileSystem) (NewAPIv4Client : GoString → GoString → ChannelClient σ × Client4 σ)
    (u : UnicodeStrings) (w : σ) (ttyPosts : Terminal) (stdin : ReadResult)
    (ttyBookmarks : Terminal) (hv : flags.VersionFlag = false)
    (hd : flags.DebugFlag = true ∨ LookupEnv (goString "MM_DEBUG") = none)
    (hurl : flags.MattermostURL ≠ []) (hscheme : flags.MattermostScheme ≠ [])
    (htoken : flags.MattermostToken ≠ []) (hchannel : flags.MattermostChannel ≠ [])
    (err : GoString) (hload : LoadConfig fs flags.ConfigFilename = Except.error err) :
    mainProgram flags LookupEnv fs NewAPIv4Client u w ttyPosts stdin ttyBookmarks
      = some (Outcome.exit 12, w) := by
  have hnp : ¬ (flags.DebugFlag = false ∧ (LookupEnv (goString "MM_DEBUG")).isSome = true) := by
    rintro ⟨h1, h2⟩
    rcases hd with h | h
    · rw [h] at h1; cases h1
    · rw [h] at h2; cases h2
  simp only [mainProgram, hv, Bool.false_eq_true, if_false, hnp, hurl, hscheme, htoken, hchannel,
    or_self, ProcessConfigFile, hload]

theorem processPinnedPosts_sites {σ : Type} (mmClient : ChannelClient σ) (w : σ)
    (channelID : GoString) (config : Config) (tty : Terminal) (r : SelectionResult)
    (err : GoError)
    (hg : GetPinnedPost (mmClient.GetPinnedPosts w channelID []).1 tty = some (r, err)) :
    (err ≠ none →
      ProcessPinnedPosts mmClient w channelID config tty
        = some (LinkOutcome.exit ExitSite.menuFailed.code,
            (mmClient.GetPinnedPosts w channelID []).2)) ∧
    (err = none → r.SelectionType = goString "AddNew" →
      (CreatePinnedPost mmClient (mmClient.GetPinnedPosts w channelID []).2 channelID config).1.2
        ≠ none →
      ProcessPinnedPosts mmClient w channelID config tty
        = some (LinkOutcome.exit ExitSite.postCreation.code,
            (CreatePinnedPost mmClient (mmClient.GetPinnedPosts w channelID []).2 channelID
              config).2)) ∧
    (err = none → r.SelectionType = goString "Abort" →
      ProcessPinnedPosts mmClient w channelID config tty
        = some (LinkOutcome.exit ExitSite.userAbort.code,
            (mmClient.GetPinnedPosts w channelID []).2)) ∧
    (err = none → r.SelectionType ≠ goString "PinnedPost" →
      r.SelectionType ≠ goString "AddNew" → r.SelectionType ≠ goString "Skip" →
      r.SelectionType ≠ goString "Abort" →
      ProcessPinnedPosts mmClient w channelID config tty
        = some (LinkOutcome.exit ExitSite.unexpectedSelection.code,
            (mmClient.GetPinnedPosts w channelID []).2)) ∧
    (err = none → r.SelectionType = goString "PinnedPost" →
      (BuildLinkToPinnedPost mmClient (mmClient.GetPinnedPosts w channelID []).2 channelID
        r.PostID).1.2 ≠ none →
      ProcessPinnedPosts mmClient w channelID config tty
        = some (LinkOutcome.exit ExitSite.linkBuilding.code,
            (BuildLinkToPinnedPost mmClient (mmClient.GetPinnedPosts w channelID []).2 channelID
              r.PostID).2)) := by
  have e1 : goString "AddNew" ≠ goString "PinnedPost" := by decide
  have e2 : goString "Abort" ≠ goString "PinnedPost" := by decide
  have e3 : goString "Abort" ≠ goString "AddNew" := by decide
  have e4 : goString "Abort" ≠ goString "Skip" := by decide
  refine ⟨?_, ?_, ?_, ?_, ?_⟩
  · intro herr
    simp only [ProcessPinnedPosts, hg, Option.some_bind, herr, ne_eq, not_false_eq_true, if_true]
    rfl
  · intro herr ht hc
    subst herr
    simp only [ProcessPinnedPosts, hg, Option.some_bind, ne_eq, not_true_eq_false, if_false, ht,
      e1, if_true, hc, not_false_eq_true]
    rfl
  · intro herr ht
    subst herr
    simp only [ProcessPinnedPosts, hg, Option.some_bind, ne_eq, not_true_eq_false, if_false, ht,
      e2, e3, e4, if_true]
    rfl
  · intro herr h1 h2 h3 h4
    subst herr
    simp only [ProcessPinnedPosts, hg, Option.some_bind, ne_eq, not_true_eq_false, if_false, h1,
      h2, h3, h4]
    rfl
  · intro herr ht hb
    subst herr
    simp only [ProcessPinnedPosts, hg, Option.some_bind, ne_eq, not_true_eq_false, if_false, ht,
      if_true, buildLinkOrExit, hb, not_false_eq_true]
    rfl

theorem processChannelHeader_sites {σ : Type} (mmClient : ChannelClient σ) (u : UnicodeStrings)
    (w : σ) (channelID : GoString) (config : Config) (stdin : ReadResult)
    (hcfg : config.Bookmarks ≠ []) :
    ((ChannelHeaderExists mmClient w channelID).1.2 ≠ none →
      ProcessChannelHeader mmClient u w channelID config stdin
        = (Outcome.exit ExitSite.headerLookup.code,
            (ChannelHeaderExists mmClient w channelID).2)) ∧
    ((ChannelHeaderExists mmClient w channelID).1 = (true, none) → stdin.err ≠ none →
      ProcessChannelHeader mmClient u w channelID config stdin
        = (Outcome.exit ExitSite.confirmationRead.code,
            (ChannelHeaderExists mmClient w channelID).2)) ∧
    ((ChannelHeaderExists mmClient w channelID).1 = (true, none) → stdin.err = none →
      stringsToLower u (stringsTrimSpace u stdin.line) = goString "y" →
      (CreateChannelHeader mmClient (ChannelHeaderExists mmClient w channelID).2 channelID
        config).1 ≠ none →
      ProcessChannelHeader mmClient u w channelID config stdin
        = (Outcome.exit ExitSite.headerCreation.code,
            (CreateChannelHeader mmClient (ChannelHeaderExists mmClient w channelID).2 channelID
              config).2)) := by
  have hlen : config.Bookmarks.length ≠ 0 := fun h => hcfg (List.length_eq_zero.mp h)
  refine ⟨?_, ?_, ?_⟩
  · intro herr
    simp only [ProcessChannelHeader, hlen, if_false, herr, ne_eq, not_false_eq_true, if_true]
    rfl
  · intro hex herr
    have h1 : (ChannelHeaderExists mmClient w channelID).1.2 = none := by rw [hex]
    have h2 : (ChannelHeaderExists mmClient w channelID).1.1 = true := by rw [hex]
    simp only [ProcessChannelHeader, hlen, if_false, h1, h2, ne_eq, not_true_eq_false, if_true,
      herr, not_false_eq_true]
    rfl
  · intro hex herr hy hc
    have h1 : (ChannelHeaderExists mmClient w channelID).1.2 = none := by rw [hex]
    have h2 : (ChannelHeaderExists mmClient w channelID).1.1 = true := by rw [hex]
    simp only [ProcessChannelHeader, hlen, if_false, h1, h2, ne_eq, not_true_eq_false, if_true,
      herr, confirmAndPatch, hy, hc, not_false_eq_true]
    rfl

theorem processChannelBookmarks_sites {σ : Type} (mmClient : Client4 σ) (w : σ)
    (channelID : GoString) (config : Config) (tty : Terminal) (hcfg : config.Bookmarks ≠ []) :
    ((HasExistingBookmarks mmClient w channelID).1.2 ≠ none →
      ProcessChannelBookmarks mmClient w channelID config tty
        = some (Outcome.exit ExitSite.bookmarkLookup.code,
            (HasExistingBookmarks mmClient w channelID).2)) ∧
    ((HasExistingBookmarks mmClient w channelID).1 = (true, none) →
      RunBookmarkMenu tty = some BookmarkReplace →
      (DeleteExistingBookmarks mmClient (HasExistingBookmarks mmClient w channelID).2
        channelID).1 ≠ none →
      ProcessChannelBookmarks mmClient w channelID config tty
        = some (Outcome.exit ExitSite.bookmarkDeletion.code,
            (DeleteExistingBookmarks mmClient (HasExistingBookmarks mmClient w channelID).2
              channelID).2)) ∧
    ((HasExistingBookmarks mmClient w channelID).1 = (false, none) →
      (CreateBookmarks mmClient (HasExistingBookmarks mmClient w channelID).2 channelID
        config).1 ≠ none →
      ProcessChannelBookmarks mmClient w channelID config tty
        = some (Outcome.exit ExitSite.bookmarkCreation.code,
            (CreateBookmarks mmClient (HasExistingBookmarks mmClient w channelID).2 channelID
              config).2)) := by
  have hlen : config.Bookmarks.length ≠ 0 := fun h => hcfg (List.length_eq_zero.mp h)
  refine ⟨?_, ?_, ?_⟩
  · intro herr
    simp only [ProcessChannelBookmarks, hlen, if_false, herr, ne_eq, not_false_eq_true, if_true]
    rfl
  · intro hex hmenu hd
    have h1 : (HasExistingBookmarks mmClient w channelID).1.2 = none := by rw [hex]
    have h2 : (HasExistingBookmarks mmClient w channelID).1.1 = true := by rw [hex]
    simp only [ProcessChannelBookmarks, hlen, if_false, h1, h2, ne_eq, not_true_eq_false,
      if_true, hmenu, Option.some_bind, hd, not_false_eq_true]
    rfl
  · intro hex hc
    have h1 : (HasExistingBookmarks mmClient w channelID).1.2 = none := by rw [hex]
    have h2 : (HasExistingBookmarks mmClient w channelID).1.1 = false := by rw [hex]
    simp only [ProcessChannelBookmarks, hlen, if_false, h1, h2, ne_eq, not_true_eq_false,
      Bool.false_eq_true, createOrExit, hc, not_false_eq_true, if_true]
    rfl

theorem exitSite_of_code (c : Int)
    (h : c = 0 ∨ c = 1 ∨ c = 12 ∨ c = 4 ∨ c = 6 ∨ c = 3 ∨ c = 7 ∨ c = 8 ∨ c = 9 ∨ c = 31
      ∨ c = 41 ∨ c = 45 ∨ c = 42) :
    ∃ site : ExitSite, c = site.code := by
  rcases h with rfl | rfl | rfl | rfl | rfl | rfl | rfl | rfl | rfl | rfl | rfl | rfl | rfl
  · exact ⟨ExitSite.versionShown, rfl⟩
  · exact ⟨ExitSite.missingParameters, rfl⟩
  · exact ⟨ExitSite.configLoad, rfl⟩
  · exact ⟨ExitSite.menuFailed, rfl⟩
  · exact ⟨ExitSite.postCreation, rfl⟩
  · exact ⟨ExitSite.unexpectedSelection, rfl⟩
  · exact ⟨ExitSite.linkBuilding, rfl⟩
  · exact ⟨ExitSite.headerLookup, rfl⟩
  · exact ⟨ExitSite.confirmationRead, rfl⟩
  · exact ⟨ExitSite.headerCreation, rfl⟩
  · exact ⟨ExitSite.bookmarkLookup, rfl⟩
  · exact ⟨ExitSite.bookmarkDeletion, rfl⟩
  · exact ⟨ExitSite.bookmarkCreation, rfl⟩

theorem headerAndBookmarkFlows_exit {σ : Type} (mmClient : ChannelClient σ)
    (bookmarkClient : Client4 σ) (u : UnicodeStrings) (w s : σ) (channelID : GoString)
    (NoHeaderFlag : Bool) (config : Config) (stdin : ReadResult) (ttyBookmarks : Terminal)
    (code : Int)
    (h : headerAndBookmarkFlows mmClient bookmarkClient u w channelID NoHeaderFlag config stdin
      ttyBookmarks = some (Outcome.exit code, s)) :
    code = 8 ∨ code = 9 ∨ code = 31 ∨ code = 41 ∨ code = 45 ∨ code = 42 := by
  unfold headerAndBookmarkFlows at h
  simp only at h
  cases NoHeaderFlag with
  | true =>
    simp only [if_true] at h
    have := processChannelBookmarks_exit bookmarkClient w s channelID config ttyBookmarks code h
    simp only [ExitSite.code] at this
    omega
  | false =>
    simp only [Bool.false_eq_true, if_false] at h
    cases hh : ProcessChannelHeader mmClient u w channelID config stdin with
    | mk o w1 =>
      rw [hh] at h
      cases o with
      | returned =>
        simp only at h
        have := processChannelBookmarks_exit bookmarkClient w1 s channelID config ttyBookmarks
          code h
        simp only [ExitSite.code] at this
        omega
      | exit c =>
        simp only [Option.some.injEq, Prod.mk.injEq, Outcome.exit.injEq] at h
        have := processChannelHeader_exit mmClient u w w1 channelID config stdin c hh
        simp only [ExitSite.code] at this
        omega

/-- Every exit of the program is the exit of one of the tabulated sites. -/
theorem mainProgram_exit {σ : Type} (flags : Flags) (LookupEnv : GoString → Option GoString)
    (fs : FileSystem) (NewAPIv4Client : GoString → GoString → ChannelClient σ × Client4 σ)
    (u : UnicodeStrings) (w s : σ) (ttyPosts : Terminal) (stdin : ReadResult)
    (ttyBookmarks : Terminal) (code : Int)
    (h : mainProgram flags LookupEnv fs NewAPIv4Client u w ttyPosts stdin ttyBookmarks
      = some (Outcome.exit code, s)) :
    ∃ site : ExitSite, code = site.code := by
  apply exitSite_of_code
  unfold mainProgram at h
  simp only at h
  generalize (if flags.MattermostURL = [] then
    getEnvWithDefault LookupEnv (goString "MM_URL") [] else flags.MattermostURL) = url at h
  generalize (if flags.MattermostPort = [] then
    getEnvWithDefault LookupEnv (goString "MM_PORT") defaultPort
    else flags.MattermostPort) = port at h
  generalize (if flags.MattermostScheme = [] then
    getEnvWithDefault LookupEnv (goString "MM_SCHEME") defaultScheme
    else flags.MattermostScheme) = scheme at h
  generalize (if flags.MattermostToken = [] then
    getEnvWithDefault LookupEnv (goString "MM_TOKEN") [] else flags.MattermostToken) = token at h
  split_ifs at h
  · simp only [Option.some.injEq, Prod.mk.injEq, Outcome.exit.injEq] at h; omega
  · simp only [Option.some.injEq, Prod.mk.injEq, Outcome.exit.injEq] at h; omega
  · cases hc : ProcessConfigFile fs flags.ConfigFilename with
    | exit c =>
      rw [hc] at h
      simp only [Option.some.injEq, Prod.mk.injEq, Outcome.exit.injEq] at h
      have h12 : c = 12 := by
        unfold ProcessConfigFile at hc
        cases hl : LoadConfig fs flags.ConfigFilename with
        | error e => rw [hl] at hc; simp only [ConfigOutcome.exit.injEq] at hc; exact hc.symm
        | ok cfg => rw [hl] at hc; cases hc
      omega
    | loaded config =>
      rw [hc] at h
      simp only at h
      unfold mainFlows at h
      cases hp : ProcessPinnedPosts (NewAPIv4Client _ _).1 w flags.MattermostChannel config
          ttyPosts with
      | none => rw [hp] at h; simp at h
      | some p =>
        obtain ⟨o, w1⟩ := p
        rw [hp] at h
        simp only [Option.some_bind] at h
        cases o with
        | exit c =>
          simp only [Option.some.injEq, Prod.mk.injEq, Outcome.exit.injEq] at h
          have := processPinnedPosts_exit _ _ _ _ _ _ _ hp
          simp only [ExitSite.code] at this
          omega
        | returned link =>
          simp only at h
          have := headerAndBookmarkFlows_exit _ _ _ _ _ _ _ _ _ _ _ h
          omega

/-- C14: the exit codes of the fatal sites are missing parameters 1, unexpected
menu outcome 3, pinned-post menu failure 4, pinned-post creation 6, link
building 7, header lookup 8, confirmation read 9, config load 12, header
creation 31, bookmark lookup 41, bookmark creation 42, bookmark deletion 45;
they are pairwise different and non-zero, and a site has exit code 0 exactly
when it is the version display or the abort chosen by the user. Each site of
the program, reached under its own failure condition, exits with exactly its
tabulated code, and every exit of the program and of its flows is the exit of
one of these sites. -/
theorem exit_codes_distinct :
    ((ExitSite.all.filter ExitSite.fatal).map ExitSite.code
      = [1, 12, 4, 6, 3, 7, 8, 9, 31, 41, 45, 42]) ∧
    (∀ a b : ExitSite, a.fatal = true → b.fatal = true → a.code = b.code → a = b) ∧
    (∀ a : ExitSite, a.fatal = true → a.code ≠ 0) ∧
    (∀ a : ExitSite, a.code = 0 ↔ (a = ExitSite.versionShown ∨ a = ExitSite.userAbort)) ∧
    (∀ a : ExitSite, a ∈ ExitSite.all) ∧
    (∀ (σ : Type) (flags : Flags) (LookupEnv : GoString → Option GoString) (fs : FileSystem)
        (NewAPIv4Client : GoString → GoString → ChannelClient σ × Client4 σ)
        (u : UnicodeStrings) (w : σ) (ttyPosts : Terminal) (stdin : ReadResult)
        (ttyBookmarks : Terminal),
      (flags.VersionFlag = true →
        mainProgram flags LookupEnv fs NewAPIv4Client u w ttyPosts stdin ttyBookmarks
          = some (Outcome.exit ExitSite.versionShown.code, w)) ∧
      (flags.VersionFlag = false →
        (flags.DebugFlag = true ∨ LookupEnv (goString "MM_DEBUG") = none) →
        (flags.MattermostChannel = []
          ∨ (flags.MattermostURL = [] ∧ LookupEnv (goString "MM_URL") = none)
          ∨ (flags.MattermostToken = [] ∧ LookupEnv (goString "MM_TOKEN") = none)) →
        mainProgram flags LookupEnv fs NewAPIv4Client u w ttyPosts stdin ttyBookmarks
          = some (Outcome.exit ExitSite.missingParameters.code, w)) ∧
      (flags.VersionFlag = false →
        (flags.DebugFlag = true ∨ LookupEnv (goString "MM_DEBUG") = none) →
        flags.MattermostURL ≠ [] → flags.MattermostScheme ≠ [] →
        flags.MattermostToken ≠ [] → flags.MattermostChannel ≠ [] →
        ∀ err : GoString, LoadConfig fs flags.ConfigFilename = Except.error err →
        mainProgram flags LookupEnv fs NewAPIv4Client u w ttyPosts stdin ttyBookmarks
          = some (Outcome.exit ExitSite.configLoad.code, w)) ∧
      (∀ (s : σ) (code : Int),
        mainProgram flags LookupEnv fs NewAPIv4Client u w ttyPosts stdin ttyBookmarks
          = some (Outcome.exit code, s) →
        ∃ site : ExitSite, code = site.code)) ∧
    (∀ (σ : Type) (mmClient : ChannelClient σ) (w : σ) (channelID : GoString)
        (config : Config) (tty : Terminal) (r : SelectionResult) (err : GoError),
      GetPinnedPost (mmClient.GetPinnedPosts w channelID []).1 tty = some (r, err) →
      (err ≠ none →
        ProcessPinnedPosts mmClient w channelID config tty
          = some (LinkOutcome.exit ExitSite.menuFailed.code,
              (mmClient.GetPinnedPosts w channelID []).2)) ∧
      (err = none → r.SelectionType = goString "AddNew" →
        (CreatePinnedPost mmClient (mmClient.GetPinnedPosts w channelID []).2 channelID
          config).1.2 ≠ none →
        ProcessPinnedPosts mmClient w channelID config tty
          = some (LinkOutcome.exit ExitSite.postCreation.code,
              (CreatePinnedPost mmClient (mmClient.GetPinnedPosts w channelID []).2 channelID
                config).2)) ∧
      (err = none → r.SelectionType = goString "Abort" →
        ProcessPinnedPosts mmClient w channelID config tty
          = some (LinkOutcome.exit ExitSite.userAbort.code,
              (mmClient.GetPinnedPosts w channelID []).2)) ∧
      (err = none → r.SelectionType ≠ goString "PinnedPost" →
        r.SelectionType ≠ goString "AddNew" → r.SelectionType ≠ goString "Skip" →
        r.SelectionType ≠ goString "Abort" →
        ProcessPinnedPosts mmClient w channelID config tty
          = some (LinkOutcome.exit ExitSite.unexpectedSelection.code,
              (mmClient.GetPinnedPosts w channelID []).2)) ∧
      (err = none → r.SelectionType = goString "PinnedPost" →
        (BuildLinkToPinnedPost mmClient (mmClient.GetPinnedPosts w channelID []).2 channelID
          r.PostID).1.2 ≠ none →
        ProcessPinnedPosts mmClient w channelID config tty
          = some (LinkOutcome.exit ExitSite.linkBuilding.code,
              (BuildLinkToPinnedPost mmClient (mmClient.GetPinnedPosts w channelID []).2
                channelID r.PostID).2))) ∧
    (∀ (σ : Type) (mmClient : ChannelClient σ) (u : UnicodeStrings) (w : σ)
        (channelID : GoString) (config : Config) (stdin : ReadResult),
      config.Bookmarks ≠ [] →
      ((ChannelHeaderExists mmClient w channelID).1.2 ≠ none →
        ProcessChannelHeader mmClient u w channelID config stdin
          = (Outcome.exit ExitSite.headerLookup.code,
              (ChannelHeaderExists mmClient w channelID).2)) ∧
      ((ChannelHeaderExists mmClient w channelID).1 = (true, none) → stdin.err ≠ none →
        ProcessChannelHeader mmClient u w channelID config stdin
          = (Outcome.exit ExitSite.confirmationRead.code,
              (ChannelHeaderExists mmClient w channelID).2)) ∧
      ((ChannelHeaderExists mmClient w channelID).1 = (true, none) → stdin.err = none →
        stringsToLower u (stringsTrimSpace u stdin.line) = goString "y" →
        (CreateChannelHeader mmClient (ChannelHeaderExists mmClient w channelID).2 channelID
          config).1 ≠ none →
        ProcessChannelHeader mmClient u w channelID config stdin
          = (Outcome.exit ExitSite.headerCreation.code,
              (CreateChannelHeader mmClient (ChannelHeaderExists mmClient w channelID).2
                channelID config).2))) ∧
    (∀ (σ : Type) (mmClient : Client4 σ) (w : σ) (channelID : GoString) (config : Config)
        (tty : Terminal),
      config.Bookmarks ≠ [] →
      ((HasExistingBookmarks mmClient w channelID).1.2 ≠ none →
        ProcessChannelBookmarks mmClient w channelID config tty
          = some (Outcome.exit ExitSite.bookmarkLookup.code,
              (HasExistingBookmarks mmClient w channelID).2)) ∧
      ((HasExistingBookmarks mmClient w channelID).1 = (true, none) →
        RunBookmarkMenu tty = some BookmarkReplace →
        (DeleteExistingBookmarks mmClient (HasExistingBookmarks mmClient w channelID).2
          channelID).1 ≠ none →
        ProcessChannelBookmarks mmClient w channelID config tty
          = some (Outcome.exit ExitSite.bookmarkDeletion.code,
              (DeleteExistingBookmarks mmClient (HasExistingBookmarks mmClient w channelID).2
                channelID).2)) ∧
      ((HasExistingBookmarks mmClient w channelID).1 = (false, none) →
        (CreateBookmarks mmClient (HasExistingBookmarks mmClient w channelID).2 channelID
          config).1 ≠ none →
        ProcessChannelBookmarks mmClient w channelID config tty
          = some (Outcome.exit ExitSite.bookmarkCreation.code,
              (CreateBookmarks mmClient (HasExistingBookmarks mmClient w channelID).2
                channelID config).2))) ∧
    (∀ (σ : Type) (mmClient : Client4 σ) (w s : σ) (channelID : GoString) (config : Config)
        (tty : Terminal) (code : Int),
      ProcessChannelBookmarks mmClient w channelID config tty = some (Outcome.exit code, s) →
      code = 41 ∨ code = 45 ∨ code = 42) ∧
    (∀ (σ : Type) (mmClient : ChannelClient σ) (u : UnicodeStrings) (w s : σ)
        (channelID : GoString) (config : Config) (stdin : ReadResult) (code : Int),
      ProcessChannelHeader mmClient u w channelID config stdin = (Outcome.exit code, s) →
      code = 8 ∨ code = 9 ∨ code = 31) ∧
    (∀ (σ : Type) (mmClient : ChannelClient σ) (w s : σ) (channelID : GoString)
        (config : Config) (tty : Terminal) (code : Int),
      ProcessPinnedPosts mmClient w channelID config tty = some (LinkOutcome.exit code, s) →
      code = 4 ∨ code = 6 ∨ code = 0 ∨ code = 3 ∨ code = 7) := by
  refine ⟨by decide, ?_, ?_, ?_, ?_, ?_, ?_, ?_, ?_, ?_, ?_, ?_⟩
  · intro a b ha hb hab
    cases a <;> cases b <;> first | rfl | exact absurd ha (by decide) | exact absurd hb (by decide) | exact absurd hab (by decide)
  · intro a ha
    cases a <;> first | exact absurd ha (by decide) | decide
  · intro a
    cases a <;> decide
  · intro a
    cases a <;> decide
  · intro σ flags LookupEnv fs NewAPIv4Client u w ttyPosts stdin ttyBookmarks
    exact ⟨mainProgram_version flags LookupEnv fs NewAPIv4Client u w ttyPosts stdin ttyBookmarks,
      mainProgram_missing flags LookupEnv fs NewAPIv4Client u w ttyPosts stdin ttyBookmarks,
      fun hv hd h1 h2 h3 h4 err hl =>
        mainProgram_config flags LookupEnv fs NewAPIv4Client u w ttyPosts stdin ttyBookmarks
          hv hd h1 h2 h3 h4 err hl,
      fun s code h =>
        mainProgram_exit flags LookupEnv fs NewAPIv4Client u w s ttyPosts stdin ttyBookmarks
          code h⟩
  · intro σ mmClient w channelID config tty r err hg
    exact processPinnedPosts_sites mmClient w channelID config tty r err hg
  · intro σ mmClient u w channelID config stdin hcfg
    exact processChannelHeader_sites mmClient u w channelID config stdin hcfg
  · intro σ mmClient w channelID config tty hcfg
    exact processChannelBookmarks_sites mmClient w channelID config tty hcfg
  · intro σ mmClient w s channelID config tty code h
    exact processChannelBookmarks_exit mmClient w s channelID config tty code h
  · intro σ mmClient u w s channelID config stdin code h
    exact processChannelHeader_exit mmClient u w s channelID config stdin code h
  · intro σ mmClient w s channelID config tty code h
    exact processPinnedPosts_exit mmClient w s channelID config tty code h

theorem exit_codes_distinct_witness :
    demoConfig.Bookmarks ≠ [] ∧
    (HasExistingBookmarks (storeClient 500) demoStore demoChannel).1 = (true, none) ∧
    RunBookmarkMenu (Terminal.input [Msg.KeyMsg (goString "enter")]) = some BookmarkReplace ∧
    (DeleteExistingBookmarks (storeClient 500)
      (HasExistingBookmarks (storeClient 500) demoStore demoChannel).2 demoChannel).1 ≠ none ∧
    ProcessChannelBookmarks (storeClient 500) demoStore demoChannel demoConfig
        (Terminal.input [Msg.KeyMsg (goString "enter")])
      = some (Outcome.exit 45,
          (DeleteExistingBookmarks (storeClient 500)
            (HasExistingBookmarks (storeClient 500) demoStore demoChannel).2 demoChannel).2) :=
  ⟨by decide, by decide, by decide, by decide,
    ((exit_codes_distinct.2.2.2.2.2.2.2.2.1 BookmarkStore (storeClient 500) demoStore demoChannel
      demoConfig (Terminal.input [Msg.KeyMsg (goString "enter")]) (by decide)).2.1)
      (by decide) (by decide) (by decide)⟩

end MMChannelHeader
